import Mathlib

/-!
Verification development for the KouranBot power-outage notification pipeline.

Shallow embedding of the Python sources `bot/ceb_parser.py`, `bot/monitor.py`
and `bot/database.py`. Machine integers are modelled as `Nat`/`Int` with
explicit reductions modulo powers of two where the source relies on
fixed-width arithmetic (the MD5 core). External library calls (the HTTP
client, BeautifulSoup, the regex engine for the district-data assignment,
the SQLAlchemy storage engine, the Telegram delivery gateway, the system
clock) are modelled by their observable outcomes, passed in as explicit
inputs. Timestamps are microseconds: local wall-clock times count
microseconds from 0001-01-01T00:00:00 in the fixed UTC+4 Mauritius offset,
and UTC instants are the same scale shifted by the offset. The historical
daylight-saving windows of the `Indian/Mauritius` tz database entry
(1982-83, 2008-09) are not modelled; the spec itself fixes the region to a
constant UTC+4 offset.
-/

set_option maxRecDepth 100000

namespace KouranBot

/-! ### MD5 (hashlib.md5), over byte lists

The digest of `hashlib.md5(json_str.encode('utf-8')).hexdigest()` in
`generate_outage_id` (`bot/ceb_parser.py` lines 203-230). Implemented in
full from RFC 1321 over `Nat` with explicit reductions modulo `2^32`;
validated below against the standard test vectors and against the digest
of the repository's own example record. -/

/-- Reduce modulo `2^32`, the wrap-around of every 32-bit MD5 operation. -/
def u32 (n : Nat) : Nat := n % 4294967296

/-- Bitwise complement within 32 bits, for inputs below `2^32`. -/
def not32 (n : Nat) : Nat := 4294967295 - n

/-- Rotate a 32-bit value left by `s` positions (`0 ≤ s < 32`). The two
shifted parts occupy disjoint bit ranges, so addition realizes the OR. -/
def rotl32 (x s : Nat) : Nat := (x % 2 ^ (32 - s)) * 2 ^ s + x / 2 ^ (32 - s)

/-- The 64 round constants `K[i] = floor(abs(sin(i+1)) * 2^32)` of RFC 1321. -/
def md5K : List Nat :=
  [0xd76aa478, 0xe8c7b756, 0x242070db, 0xc1bdceee,
   0xf57c0faf, 0x4787c62a, 0xa8304613, 0xfd469501,
   0x698098d8, 0x8b44f7af, 0xffff5bb1, 0x895cd7be,
   0x6b901122, 0xfd987193, 0xa679438e, 0x49b40821,
   0xf61e2562, 0xc040b340, 0x265e5a51, 0xe9b6c7aa,
   0xd62f105d, 0x02441453, 0xd8a1e681, 0xe7d3fbc8,
   0x21e1cde6, 0xc33707d6, 0xf4d50d87, 0x455a14ed,
   0xa9e3e905, 0xfcefa3f8, 0x676f02d9, 0x8d2a4c8a,
   0xfffa3942, 0x8771f681, 0x6d9d6122, 0xfde5380c,
   0xa4beea44, 0x4bdecfa9, 0xf6bb4b60, 0xbebfbc70,
   0x289b7ec6, 0xeaa127fa, 0xd4ef3085, 0x04881d05,
   0xd9d4d039, 0xe6db99e5, 0x1fa27cf8, 0xc4ac5665,
   0xf4292244, 0x432aff97, 0xab9423a7, 0xfc93a039,
   0x655b59c3, 0x8f0ccc92, 0xffeff47d, 0x85845dd1,
   0x6fa87e4f, 0xfe2ce6e0, 0xa3014314, 0x4e0811a1,
   0xf7537e82, 0xbd3af235, 0x2ad7d2bb, 0xeb86d391]

/-- The per-round left-rotation amounts of RFC 1321. -/
def md5S : List Nat :=
  [7, 12, 17, 22, 7, 12, 17, 22, 7, 12, 17, 22, 7, 12, 17, 22,
   5, 9, 14, 20, 5, 9, 14, 20, 5, 9, 14, 20, 5, 9, 14, 20,
   4, 11, 16, 23, 4, 11, 16, 23, 4, 11, 16, 23, 4, 11, 16, 23,
   6, 10, 15, 21, 6, 10, 15, 21, 6, 10, 15, 21, 6, 10, 15, 21]

/-- Round mixing function and message-word index for round `i`. -/
def md5FG (i b c d : Nat) : Nat × Nat :=
  if i < 16 then ((b &&& c) ||| (not32 b &&& d), i)
  else if i < 32 then ((d &&& b) ||| (not32 d &&& c), (5 * i + 1) % 16)
  else if i < 48 then (b ^^^ c ^^^ d, (3 * i + 5) % 16)
  else (c ^^^ (b ||| not32 d), (7 * i) % 16)

/-- One MD5 round applied to the state `(a, b, c, d)`, with `m` the sixteen
message words of the current 64-byte chunk. -/
def md5Round (m : List Nat) (st : Nat × Nat × Nat × Nat) (i : Nat) :
    Nat × Nat × Nat × Nat :=
  let (a, b, c, d) := st
  let (f, g) := md5FG i b c d
  let f' := u32 (f + a + md5K.getD i 0 + m.getD g 0)
  (d, u32 (b + rotl32 f' (md5S.getD i 0)), b, c)

/-- Assemble the sixteen little-endian 32-bit message words of a chunk. -/
def md5Words16 : List Nat → List Nat
  | b0 :: b1 :: b2 :: b3 :: rest =>
      (b0 + 256 * b1 + 65536 * b2 + 16777216 * b3) :: md5Words16 rest
  | _ => []

/-- Process one 64-byte chunk: run the 64 rounds and add the result into the
running state, each component reduced modulo `2^32`. -/
def md5Chunk (st : Nat × Nat × Nat × Nat) (chunk : List Nat) :
    Nat × Nat × Nat × Nat :=
  let m := md5Words16 chunk
  let r := (List.range 64).foldl (md5Round m) st
  (u32 (st.1 + r.1), u32 (st.2.1 + r.2.1), u32 (st.2.2.1 + r.2.2.1), u32 (st.2.2.2 + r.2.2.2))

/-- Structural worker for `chunks64`: accumulate the current chunk in
reverse with its length, emitting a chunk at every 64th byte. -/
def chunks64Go (cur : List Nat) (curLen : Nat) : List Nat → List (List Nat)
  | [] => if curLen = 0 then [] else [cur.reverse]
  | b :: rest =>
      if curLen = 63 then (b :: cur).reverse :: chunks64Go [] 0 rest
      else chunks64Go (b :: cur) (curLen + 1) rest

/-- Split a byte list into 64-byte chunks. -/
def chunks64 (l : List Nat) : List (List Nat) := chunks64Go [] 0 l

/-- MD5 padding: append `0x80`, zeros up to 56 modulo 64, then the bit
length as eight little-endian bytes. The zero count is `(55 - L) mod 64`
over the integers; writing it as `(119 - L % 64) % 64` keeps the
subtrahend at least 56, so Nat subtraction never truncates and lengths
56-63 modulo 64 wrap correctly into the next block. -/
def md5Pad (msg : List Nat) : List Nat :=
  let lenBits := (msg.length * 8) % 2 ^ 64
  msg ++ 128 :: List.replicate ((119 - msg.length % 64) % 64) 0 ++
    [lenBits % 256, lenBits / 256 % 256, lenBits / 65536 % 256,
     lenBits / 16777216 % 256, lenBits / 2 ^ 32 % 256, lenBits / 2 ^ 40 % 256,
     lenBits / 2 ^ 48 % 256, lenBits / 2 ^ 56 % 256]

/-- The four 32-bit state words of the MD5 digest of a byte list. -/
def md5WordsOf (msg : List Nat) : Nat × Nat × Nat × Nat :=
  (chunks64 (md5Pad msg)).foldl md5Chunk (0x67452301, 0xefcdab89, 0x98badcfe, 0x10325476)

/-- The sixteen lowercase hexadecimal digit characters `0`-`9`, `a`-`f`,
built from their code points. -/
def hexDigitList : List Char :=
  (List.range 16).map fun n => Char.ofNat (if n < 10 then 48 + n else 87 + n)

/-- Lowercase hexadecimal digit for `n < 16`. -/
def hexDigit (n : Nat) : Char := hexDigitList.getD n '0'

/-- Two lowercase hex characters of a byte. -/
def hexByte (b : Nat) : List Char := [hexDigit (b / 16 % 16), hexDigit (b % 16)]

/-- Four little-endian bytes of a 32-bit word. -/
def bytesLE (w : Nat) : List Nat := [w % 256, w / 256 % 256, w / 65536 % 256, w / 16777216 % 256]

/-- Hex encoding of the digest state, little-endian per word: the value of
`hexdigest()`. -/
def md5HexOfWords (st : Nat × Nat × Nat × Nat) : String :=
  String.mk (((bytesLE st.1 ++ bytesLE st.2.1 ++ bytesLE st.2.2.1 ++ bytesLE st.2.2.2).map hexByte).flatten)

/-- The value of `hashlib.md5(msg).hexdigest()` for a byte list `msg`. -/
def md5Hex (msg : List Nat) : String := md5HexOfWords (md5WordsOf msg)

/-! ### UTF-8 encoding of a string (`str.encode('utf-8')`) -/

/-- UTF-8 bytes of one scalar value. -/
def utf8Char (c : Char) : List Nat :=
  let n := c.toNat
  if n < 128 then [n]
  else if n < 2048 then [192 + n / 64, 128 + n % 64]
  else if n < 65536 then [224 + n / 4096, 128 + n / 64 % 64, 128 + n % 64]
  else [240 + n / 262144, 128 + n / 4096 % 64, 128 + n / 64 % 64, 128 + n % 64]

/-- UTF-8 bytes of a string. -/
def utf8 (s : String) : List Nat := s.data.flatMap utf8Char

/-! ### The canonical JSON serialization used by `generate_outage_id`

Models `json.dumps(data, separators=(',', ':'), ensure_ascii=False)` on the
four-key dictionary built at `bot/ceb_parser.py` lines 220-228; Python
dictionaries preserve insertion order, so the keys are serialized in the
fixed order date, locality, streets, district. With `ensure_ascii=False`
the encoder escapes exactly the quote, the backslash and the control
characters below `0x20` (with the five short escapes), and passes every
other character through. -/

/-- JSON string escaping of one character (CPython `ESCAPE` pattern with
`ensure_ascii=False`). -/
def jsonEscChar (c : Char) : List Char :=
  if c = '"' then ['\\', '"']
  else if c = '\\' then ['\\', '\\']
  else if c = '\n' then ['\\', 'n']
  else if c = '\t' then ['\\', 't']
  else if c = '\r' then ['\\', 'r']
  else if c = '\x08' then ['\\', 'b']
  else if c = '\x0c' then ['\\', 'f']
  else if c.toNat < 32 then ['\\', 'u', '0', '0', hexDigit (c.toNat / 16), hexDigit (c.toNat % 16)]
  else [c]

/-- JSON string escaping of a character list. -/
def jsonEsc (s : List Char) : List Char := s.flatMap jsonEscChar

/-- The serialized JSON object `{"date":…,"locality":…,"streets":…,"district":…}`
with no whitespace, as a character list. -/
def serializeOutage (date locality streets district : String) : List Char :=
  "\x7b\"date\":\"".data ++ jsonEsc date.data ++
  "\",\"locality\":\"".data ++ jsonEsc locality.data ++
  "\",\"streets\":\"".data ++ jsonEsc streets.data ++
  "\",\"district\":\"".data ++ jsonEsc district.data ++ "\"\x7d".data

/-- A raw outage dictionary as handled by `generate_outage_id`: the four
identity fields, plus the `from`/`to` fields that may or may not have been
attached yet (the hash is computed before they are added). -/
structure RawOutage where
  date : String
  locality : String
  streets : String
  district : String
  fromT : Option Int := none
  toT : Option Int := none
  deriving Repr, DecidableEq

/-- `generate_outage_id` (`bot/ceb_parser.py` lines 203-230): the MD5 hex
digest of the UTF-8 bytes of the canonical serialization of exactly the
four fields date, locality, streets, district. -/
def generate_outage_id (o : RawOutage) : String :=
  md5Hex ((String.mk (serializeOutage o.date o.locality o.streets o.district)).data.flatMap utf8Char)

/-! Validation of the MD5 embedding against the standard test vectors and
against the digest of the repository's own example record
(`test_ceb_parser.py` lines 39-49). -/

/-- MD5 of the empty message, RFC 1321 test vector. -/
theorem md5_empty_vector : md5Hex (utf8 "") = "d41d8cd98f00b204e9800998ecf8427e" := by decide

/-- MD5 of "abc", RFC 1321 test vector. -/
theorem md5_abc_vector : md5Hex (utf8 "abc") = "900150983cd24fb0d6963f7d28e17f72" := by decide

/-- The repository's example record (`test_ceb_parser.py` lines 39-49, spec §8)
hashes to the digest `hashlib.md5` produces for it, pinning the whole
serialize-encode-hash chain to the Python implementation (the date string
contains a two-byte UTF-8 character). -/
theorem generate_outage_id_example :
    generate_outage_id
      { date := "Le dimanche 13 mars 2022 de 09:30:00 à 13:00:00",
        locality := "TAMARIN", streets := "AVE DES MARLINS", district := "blackriver" } =
      "af756731b35c3f72e68becc9840cdf0b" := by decide

/-- Padding-boundary vectors against `hashlib.md5`: lengths 55, 56, 63 and
64 bytes of `a` (byte 97) cover the last one-block length, both ends of
the range where the zero padding wraps into a second block, and the first
exact-block length. -/
theorem md5_pad_wrap_vectors :
    md5Hex (List.replicate 55 97) = "ef1772b6dff9a122358552954ad0df65" ∧
    md5Hex (List.replicate 56 97) = "3b0c8ac703f828b04c6c197006d17218" ∧
    md5Hex (List.replicate 63 97) = "b06521f39153d618550606be297466d5" ∧
    md5Hex (List.replicate 64 97) = "014842d480b571495a4a0363793f7367" := by
  refine ⟨?_, ?_, ?_, ?_⟩ <;> decide

/-- A 125-byte serialization (length 61 modulo 64, in the wrapped padding
range): the example record with streets `OTHER ST` hashes to the digest
`hashlib.md5` produces for it. -/
theorem generate_outage_id_wrap_example :
    generate_outage_id
      { date := "Le dimanche 13 mars 2022 de 09:30:00 à 13:00:00",
        locality := "TAMARIN", streets := "OTHER ST", district := "blackriver" } =
      "9414a68fc489c4aae0b045a56805bade" := by decide

/-! ### Proleptic Gregorian calendar and the microsecond timeline

Used by `datetime(year, month, day, …)` construction and comparison in
`parse_french_date`, and by the today/future boundary in
`categorize_outages`. Day ordinals count from 0001-01-01 = 0 (Python's
`date.toordinal()` minus one). -/

/-- Gregorian leap-year test. -/
def isLeapYear (y : Nat) : Bool := y % 4 == 0 && (y % 100 != 0 || y % 400 == 0)

/-- Number of days in a month (`datetime` validity bound for the day). -/
def daysInMonth (y m : Nat) : Nat :=
  if m == 2 then (if isLeapYear y then 29 else 28)
  else if m == 4 || m == 6 || m == 9 || m == 11 then 30
  else 31

/-- Days in the years strictly before year `y`. -/
def daysBeforeYear (y : Nat) : Nat :=
  (y - 1) * 365 + (y - 1) / 4 - (y - 1) / 100 + (y - 1) / 400

/-- Days in the months of year `y` strictly before month `m`. -/
def daysBeforeMonth (y m : Nat) : Nat :=
  ([0, 0, 31, 59, 90, 120, 151, 181, 212, 243, 273, 304, 334].getD m 0) +
    (if 2 < m && isLeapYear y then 1 else 0)

/-- Ordinal day number of a calendar date, with 0001-01-01 = 0. -/
def civilDays (y m d : Nat) : Nat := daysBeforeYear y + daysBeforeMonth y m + (d - 1)

/-- Microseconds per day. -/
def usPerDay : Int := 86400000000

/-- Local Mauritius wall-clock instant (microsecond timeline) of a calendar
date and time of day. -/
def localUs (y m d h mi s : Nat) : Int :=
  (civilDays y m d : Int) * usPerDay + ((h * 3600 + mi * 60 + s : Nat) : Int) * 1000000

/-- The fixed UTC+4 Mauritius offset in microseconds. -/
def mauOffsetUs : Int := 14400000000

/-- UTC instant (microsecond timeline) of a UTC calendar date and time. -/
def utcUs (y m d h mi s : Nat) : Int := localUs y m d h mi s

/-- Convert a UTC instant to Mauritius local wall-clock time
(`astimezone(MAURITIUS_TZ)` under the fixed UTC+4 offset). -/
def toLocal (t : Int) : Int := t + mauOffsetUs

/-- Validation of the day ordinals against Python's `date.toordinal()`:
`date(2022, 3, 13).toordinal() == 738227`, `date(2000, 3, 1) == 730180`,
`date(2024, 2, 29) == 738945` (each ordinal is ours plus one). -/
theorem civilDays_vectors :
    civilDays 1 1 1 = 0 ∧ civilDays 2022 3 13 = 738226 ∧
    civilDays 2000 3 1 = 730179 ∧ civilDays 2024 2 29 = 738944 := by decide

/-! ### `parse_french_date` (`bot/ceb_parser.py` lines 98-156)

The Python function normalizes whitespace, matches the anchored regex
`Le\s+\w+\s+(\d{1,2})\s+(\w+)\s+(\d{4})\s+de\s+(\d{2}:\d{2}:\d{2})\s+[àa]\s+(\d{2}:\d{2}:\d{2})`
case-insensitively, looks the month name up in `FRENCH_MONTHS`, builds the
two `datetime`s in the Mauritius timezone (a `ValueError` for an invalid
date or time component yields `(None, None)`), adds one day to the end if
it is before the start, and converts both to UTC. After whitespace
normalization the regex match is equivalent to the token-level parse below
(every `\s+` must match exactly one space, and `\w`/`\d` cannot match a
space, so each group must coincide with a whole space-separated token —
except the final time group, which only needs to open its token). Python's
Unicode `\w` is approximated by ASCII alphanumerics, the underscore and
every character above `0x7f`; the month token is still checked exactly
against `FRENCH_MONTHS`, so the approximation only widens which weekday
tokens are accepted. -/

/-- ASCII whitespace, standing in for the `\s` class used by the
normalization `re.sub(r'\s+', ' ', date_str).strip()`. -/
def isWs (c : Char) : Bool :=
  c = ' ' || c = '\t' || c = '\n' || c = '\r' || c = '\x0b' || c = '\x0c'

/-- Word characters for `\w` (see the section comment). -/
def isWordChar (c : Char) : Bool := c.isAlphanum || c = '_' || 128 ≤ c.toNat

/-- A string made only of ASCII digits (`\d`). -/
def allDigits (s : String) : Bool := s.data.all (·.isDigit)

/-- ASCII lowercasing, the effect of matching a literal case-insensitively. -/
def lowerStr (s : String) : String := String.mk (s.data.map Char.toLower)

/-- Numeric value of an ASCII digit string (`int(...)` on a digit string). -/
def digitsToNat (s : String) : Nat := s.data.foldl (fun a c => a * 10 + (c.toNat - 48)) 0

/-- `FRENCH_MONTHS` (`bot/ceb_parser.py` lines 28-44), looked up on the
lowercased month token; `none` models absence from the dictionary. -/
def frenchMonth (s : String) : Option Nat :=
  if s = "janvier" then some 1
  else if s = "février" then some 2
  else if s = "fevrier" then some 2
  else if s = "mars" then some 3
  else if s = "avril" then some 4
  else if s = "mai" then some 5
  else if s = "juin" then some 6
  else if s = "juillet" then some 7
  else if s = "août" then some 8
  else if s = "aout" then some 8
  else if s = "septembre" then some 9
  else if s = "octobre" then some 10
  else if s = "novembre" then some 11
  else if s = "décembre" then some 12
  else if s = "decembre" then some 12
  else none

/-- Shape test for a `\d{2}:\d{2}:\d{2}` time group on a character list. -/
def timeShape (l : List Char) : Bool :=
  match l with
  | [h1, h2, c1, m1, m2, c2, s1, s2] =>
      h1.isDigit && h2.isDigit && c1 = ':' && m1.isDigit && m2.isDigit &&
        c2 = ':' && s1.isDigit && s2.isDigit
  | _ => false

/-- Hours, minutes and seconds of a well-shaped time token. -/
def timeParts (l : List Char) : Nat × Nat × Nat :=
  match l with
  | h1 :: h2 :: _ :: m1 :: m2 :: _ :: s1 :: s2 :: _ =>
      (digitsToNat (String.mk [h1, h2]), digitsToNat (String.mk [m1, m2]),
       digitsToNat (String.mk [s1, s2]))
  | _ => (0, 0, 0)

/-- The components captured by a successful regex match plus month lookup
and `datetime` construction: calendar date and the two times of day,
already validated (`datetime` raises `ValueError` otherwise). -/
structure FrenchDate where
  year : Nat
  month : Nat
  day : Nat
  fromH : Nat
  fromM : Nat
  fromS : Nat
  toH : Nat
  toM : Nat
  toS : Nat
  deriving Repr, DecidableEq

/-- Structural worker for `dateTokens`: split at whitespace, accumulating
the current token in reverse and dropping empty tokens. -/
def tokensGo (cur : List Char) : List Char → List String
  | [] => if cur = [] then [] else [String.mk cur.reverse]
  | c :: rest =>
      if isWs c then
        if cur = [] then tokensGo [] rest
        else String.mk cur.reverse :: tokensGo [] rest
      else tokensGo (c :: cur) rest

/-- Whitespace-normalized token list of the input string: the space-separated
tokens of `re.sub(r'\s+', ' ', date_str).strip()`. -/
def dateTokens (s : String) : List String := tokensGo [] s.data

/-- Regex match, month lookup and `datetime` validity check of
`parse_french_date`; `none` collects every `(None, None)` path before the
overnight adjustment. -/
def parseDateComponents (s : String) : Option FrenchDate :=
  match dateTokens s with
  | t0 :: t1 :: t2 :: t3 :: t4 :: t5 :: t6 :: t7 :: t8 :: _ =>
      if lowerStr t0 = "le" ∧ t1 ≠ "" ∧ t1.data.all isWordChar ∧
          allDigits t2 ∧ (t2.length = 1 ∨ t2.length = 2) ∧
          t3 ≠ "" ∧ t3.data.all isWordChar ∧
          allDigits t4 ∧ t4.length = 4 ∧ lowerStr t5 = "de" ∧
          timeShape t6.data ∧ (t7 = "a" ∨ t7 = "A" ∨ t7 = "à" ∨ t7 = "À") ∧
          timeShape (t8.data.take 8) then
        match frenchMonth (lowerStr t3) with
        | none => none
        | some month =>
          let day := digitsToNat t2
          let year := digitsToNat t4
          let ft := timeParts t6.data
          let tt := timeParts (t8.data.take 8)
          if 1 ≤ year ∧ 1 ≤ day ∧ day ≤ daysInMonth year month ∧
              ft.1 ≤ 23 ∧ ft.2.1 ≤ 59 ∧ ft.2.2 ≤ 59 ∧
              tt.1 ≤ 23 ∧ tt.2.1 ≤ 59 ∧ tt.2.2 ≤ 59 then
            some ⟨year, month, day, ft.1, ft.2.1, ft.2.2, tt.1, tt.2.1, tt.2.2⟩
          else none
      else none
  | _ => none

/-- Local wall-clock start instant of a parsed date. -/
def fromLocalUs (p : FrenchDate) : Int := localUs p.year p.month p.day p.fromH p.fromM p.fromS

/-- Local wall-clock end instant of a parsed date, before the overnight
adjustment. -/
def toLocalUs (p : FrenchDate) : Int := localUs p.year p.month p.day p.toH p.toM p.toS

/-- Time resolution of `parse_french_date` (lines 141-152): add one day to
the end when it precedes the start, then convert both to UTC. -/
def resolveTimes (p : FrenchDate) : Int × Int :=
  let ft := fromLocalUs p
  let tt := toLocalUs p
  let tt' := if tt < ft then tt + usPerDay else tt
  (ft - mauOffsetUs, tt' - mauOffsetUs)

/-- `parse_french_date`: UTC start and end instants, or `none`. -/
def parse_french_date (s : String) : Option (Int × Int) :=
  (parseDateComponents s).map resolveTimes

/-! ### The HTML pipeline (`bot/ceb_parser.py` lines 159-355)

BeautifulSoup's HTML parsing is an external library; a district's HTML
fragment is modelled by what the soup yields for it: the list of table
rows, each a list of cell strings (already `get_text(strip=True)`
extracted). The regex search for the `arDistrictLocations` assignment and
`json.loads` on its capture are likewise modelled by their outcome. -/

/-- A processed outage dictionary of the pipeline: identity fields plus the
optional resolved start/end instants (microsecond UTC timeline). -/
structure POutage where
  id : String
  date : String
  locality : String
  streets : String
  district : String
  fromT : Option Int := none
  toT : Option Int := none
  deriving Repr, DecidableEq

/-- `parse_table_html` (lines 159-200): keep rows with at least three
cells, read date, locality and streets from the first three, skip rows
whose date cell is empty, and attach the district name. -/
def parse_table_html (rows : List (List String)) (district : String) : List RawOutage :=
  rows.filterMap fun cells =>
    match cells with
    | dateText :: locality :: streets :: _ =>
        if dateText = "" then none
        else some { date := dateText, locality := locality, streets := streets,
                    district := district }
    | _ => none

/-- One iteration of the processing loop of `fetch_and_parse_outages`
(lines 324-343): generate the id before `from`/`to` are attached, parse the
French date, and drop the record when parsing fails. -/
def processOutageRow (o : RawOutage) : Option POutage :=
  let oid := generate_outage_id o
  match parse_french_date o.date with
  | some (f, t) =>
      some { id := oid, date := o.date, locality := o.locality, streets := o.streets,
             district := o.district, fromT := some f, toT := some t }
  | none => none

/-- Structural worker for `remove_duplicates`: `seen` is the set of ids
already emitted. -/
def removeDupGo (seen : List String) : List POutage → List POutage
  | [] => []
  | o :: rest =>
      if o.date = "" then removeDupGo seen rest
      else if o.id ≠ "" ∧ ¬ seen.contains o.id then o :: removeDupGo (o.id :: seen) rest
      else removeDupGo seen rest

/-- `remove_duplicates` (lines 277-294): drop entries with an empty date or
id, and keep only the first entry bearing each id (the `seen` dictionary
preserves insertion order). -/
def remove_duplicates (l : List POutage) : List POutage := removeDupGo [] l

/-- End of the current local calendar day, microsecond precision:
`now.replace(hour=23, minute=59, second=59, microsecond=999999)` for a
local wall-clock instant `now`. -/
def endOfToday (now : Int) : Int := now - now % usPerDay + 86399999999

/-- The two buckets produced by `categorize_outages`. -/
structure Categorized where
  today : List POutage
  future : List POutage
  deriving Repr, DecidableEq

/-- Structural worker for `categorize_outages`: records without a start are
skipped; a local start at or before the end-of-day boundary goes to
today, later starts to future, preserving order. -/
def catGo (eod : Int) : List POutage → List POutage × List POutage
  | [] => ([], [])
  | o :: rest =>
      let (t, f) := catGo eod rest
      match o.fromT with
      | none => (t, f)
      | some ft => if toLocal ft ≤ eod then (o :: t, f) else (t, o :: f)

/-- `categorize_outages` (lines 233-274): flatten the per-district lists
and split at the end of the current local day. -/
def categorize_outages (obd : List (String × List POutage)) (now : Int) : Categorized :=
  let all := (obd.map Prod.snd).flatten
  { today := (catGo (endOfToday now) all).1, future := (catGo (endOfToday now) all).2 }

/-- Outcome of the `re.search(r'var arDistrictLocations = ({.+});', html)`
call followed by `json.loads` on the capture: the assignment may be absent,
or present with invalid JSON, or parse to a district map. -/
inductive AssignmentSearch where
  | absent
  | found (parsed : Option (List (String × List (List String))))

/-- `extract_district_data` (lines 72-95): an empty mapping when the
assignment is missing or its JSON is invalid (both paths only log). -/
def extract_district_data : AssignmentSearch → List (String × List (List String))
  | .absent => []
  | .found none => []
  | .found (some d) => d

/-- Outcome of `fetch_ceb_page`: `raise_for_status`/network errors
propagate as `httpx.HTTPError`; otherwise the page body is as modelled by
its `AssignmentSearch` outcome. -/
inductive HtmlFetch where
  | fetchFail
  | page (search : AssignmentSearch)

/-- The two ways the HTML pipeline fails: the propagated `httpx.HTTPError`,
and the `ValueError("No district data found in CEB page")` raised when
`extract_district_data` comes back empty. -/
inductive PipelineError where
  | httpError
  | noDistrictData
  deriving Repr, DecidableEq

/-- Per-district processing of `fetch_and_parse_outages` (lines 319-347):
parse the rows, process each, deduplicate within the district. -/
def processDistrict (district : String) (rows : List (List String)) : List POutage :=
  remove_duplicates ((parse_table_html rows district).filterMap processOutageRow)

/-- `fetch_and_parse_outages` (lines 297-354), with the fetch outcome and
the current local wall-clock time passed explicitly. -/
def fetch_and_parse_outages (f : HtmlFetch) (now : Int) : Except PipelineError Categorized :=
  match f with
  | .fetchFail => .error .httpError
  | .page search =>
      let dd := extract_district_data search
      if dd.isEmpty then .error .noDistrictData
      else .ok (categorize_outages (dd.map fun p => (p.1, processDistrict p.1 p.2)) now)

/-! ### The JSON-feed variant (`bot/monitor.py` lines 47-59) -/

/-- An item of the aggregated JSON feed; absent keys are `none`
(`outage_data.get(...)`). -/
structure JsonOutage where
  id : Option String := none
  locality : Option String := none
  district : Option String := none
  streets : Option String := none
  date : Option String := none
  fromS : Option String := none
  toS : Option String := none
  deriving Repr, DecidableEq

/-- The parsed feed body `{ "today": [...], "future": [...] }`; the empty
payload models the empty dictionary `{}`. -/
structure Payload where
  today : List JsonOutage := []
  future : List JsonOutage := []
  deriving Repr, DecidableEq

/-- Outcome of the GET request in `OutageMonitor._fetch_outages`: an
`httpx.HTTPError` (network, timeout, non-2xx), a body that is not valid
JSON (`response.json()` raises, caught by the generic handler), or a
parsed payload. -/
inductive JsonFetch where
  | httpError
  | malformedBody
  | ok (p : Payload)

/-- `OutageMonitor._fetch_outages`: both failure kinds are caught and
collapse to the empty dictionary. -/
def fetch_outages : JsonFetch → Payload
  | .httpError => {}
  | .malformedBody => {}
  | .ok p => p

/-! ### ISO-8601 parsing (`datetime.fromisoformat` after `replace("Z", "+00:00")`)

Used by `OutageMonitor._process_outages` on the `from`/`to` fields of feed
items. The model accepts the shapes the feed and the pipeline produce:
`YYYY-MM-DD[T ]HH:MM:SS`, an optional fraction of one to six digits, and
an optional `±HH:MM` offset; a missing offset is read as UTC (the code
would store a naive datetime with the same clock reading). An invalid
component raises `ValueError` in Python, modelled by `none`. -/

/-- Numeric value of a fixed list of digit characters. -/
def digitsVal (l : List Char) : Nat := l.foldl (fun a c => a * 10 + (c.toNat - 48)) 0

/-- Fraction microseconds of one to six fractional digits. -/
def fracUs (ds : List Char) : Nat := digitsVal ds * 10 ^ (6 - ds.length)

/-- Offset tail parser: empty (naive), or `±HH:MM` in microseconds. -/
def parseIsoOffset : List Char → Option Int
  | [] => some 0
  | [sgn, o1, o2, ':', o3, o4] =>
      if (sgn = '+' ∨ sgn = '-') ∧ o1.isDigit ∧ o2.isDigit ∧ o3.isDigit ∧ o4.isDigit then
        let v : Int := ((digitsVal [o1, o2] * 3600 + digitsVal [o3, o4] * 60) * 1000000 : Nat)
        some (if sgn = '-' then -v else v)
      else none
  | _ => none

/-- Fraction-and-offset tail parser, yielding fraction microseconds and the
offset. -/
def parseIsoTail : List Char → Option (Nat × Int)
  | '.' :: rest =>
      let ds := rest.takeWhile (·.isDigit)
      if 1 ≤ ds.length ∧ ds.length ≤ 6 then
        (parseIsoOffset (rest.dropWhile (·.isDigit))).map fun off => (fracUs ds, off)
      else none
  | rest => (parseIsoOffset rest).map fun off => (0, off)

/-- Core of `datetime.fromisoformat` on a character list. -/
def parseIsoChars : List Char → Option Int
  | y1 :: y2 :: y3 :: y4 :: '-' :: m1 :: m2 :: '-' :: d1 :: d2 :: sep ::
      h1 :: h2 :: ':' :: mi1 :: mi2 :: ':' :: s1 :: s2 :: rest =>
      if [y1, y2, y3, y4, m1, m2, d1, d2, h1, h2, mi1, mi2, s1, s2].all (·.isDigit) ∧
          (sep = 'T' ∨ sep = ' ') then
        let y := digitsVal [y1, y2, y3, y4]
        let m := digitsVal [m1, m2]
        let d := digitsVal [d1, d2]
        let h := digitsVal [h1, h2]
        let mi := digitsVal [mi1, mi2]
        let s := digitsVal [s1, s2]
        if 1 ≤ y ∧ 1 ≤ m ∧ m ≤ 12 ∧ 1 ≤ d ∧ d ≤ daysInMonth y m ∧
            h ≤ 23 ∧ mi ≤ 59 ∧ s ≤ 59 then
          (parseIsoTail rest).map fun (fr, off) =>
            localUs y m d h mi s + (fr : Int) - off
        else none
      else none
  | _ => none

/-- `datetime.fromisoformat(s.replace("Z", "+00:00"))` as a UTC instant. -/
def parseIso (s : String) : Option Int :=
  parseIsoChars (s.data.flatMap fun c => if c = 'Z' then "+00:00".data else [c])

/-! ### Database model (`bot/database.py`)

Rows of the five tables the monitor touches. The SQLAlchemy engine is the
storage boundary: a session is modelled as the current list of rows per
table, queries as list traversals in insertion order, commits as pure
state updates. `telegram_id` carries a uniqueness constraint in the
schema, so updating every matching row coincides with updating the first. -/

/-- A `users` row (the columns the monitor reads). -/
structure UserRow where
  telegramId : Int
  language : String := "fr"
  isActive : Bool := true
  deriving Repr, DecidableEq

/-- A `localities` row. -/
structure LocalityRow where
  lid : Nat
  name : String
  deriving Repr, DecidableEq

/-- A `subscriptions` row. -/
structure SubRow where
  userId : Int
  localityId : Nat
  deriving Repr, DecidableEq

/-- An `outages` row. -/
structure OutageRow where
  id : String
  locality : String
  district : String
  streets : String
  dateDescription : String
  fromTime : Int
  toTime : Int
  firstSeen : Int
  lastChecked : Int
  deriving Repr, DecidableEq

/-- A `notifications_sent` row (the `sent_at` column plays no role in the
claims and is omitted). -/
structure NotifRow where
  userId : Int
  outageId : String
  deriving Repr, DecidableEq

/-- The database state. -/
structure DB where
  users : List UserRow := []
  localities : List LocalityRow := []
  subscriptions : List SubRow := []
  outages : List OutageRow := []
  notifications : List NotifRow := []
  deriving Repr, DecidableEq

/-- `get_users_with_language_for_locality` (`bot/database.py` lines
297-304): the join of active users, their subscriptions and the localities
bearing the requested name, yielding `(telegram_id, language or "en")` per
join row. -/
def get_users_with_language_for_locality (db : DB) (localityName : String) :
    List (Int × String) :=
  (db.users.filter (·.isActive)).flatMap fun u =>
    (db.subscriptions.filter (fun s => s.userId == u.telegramId)).flatMap fun s =>
      (db.localities.filter fun l => l.lid == s.localityId && l.name == localityName).map
        fun _ => (u.telegramId, if u.language = "" then "en" else u.language)

/-! ### `OutageMonitor._process_outages` (`bot/monitor.py` lines 61-116) -/

/-- Construction of the new `Outage` row (lines 82-94): every keyword
argument is evaluated before the constructor runs, so a missing `from`/`to`
key (`KeyError`) or an unparseable instant (`ValueError` from
`fromisoformat`) aborts the creation; the generic handler then rolls the
transaction back and continues with the next record. -/
def createOutageRow (now : Int) (i : String) (o : JsonOutage) : Option OutageRow :=
  match o.fromS, o.toS with
  | some fs, some ts =>
      match parseIso fs, parseIso ts with
      | some f, some t =>
          some { id := i, locality := o.locality.getD "", district := o.district.getD "",
                 streets := o.streets.getD "", dateDescription := o.date.getD "",
                 fromTime := f, toTime := t, firstSeen := now, lastChecked := now }
      | _, _ => none
  | _, _ => none

/-- Accumulator of the processing loop: ids persisted as new, ids
classified as already known (the `else` branch of line 105), and the
database state. -/
structure ProcessAcc where
  newIds : List String := []
  knownIds : List String := []
  db : DB
  deriving Repr, DecidableEq

/-- One iteration of the loop of `_process_outages`: skip records with a
falsy id; create unseen outages (or roll back on failure); touch
`last_checked` on known ones. -/
def processStep (now : Int) (acc : ProcessAcc) (o : JsonOutage) : ProcessAcc :=
  match o.id with
  | none => acc
  | some i =>
      if i = "" then acc
      else if acc.db.outages.any (fun r => r.id == i) then
        { acc with
          knownIds := acc.knownIds ++ [i],
          db := { acc.db with
                  outages := acc.db.outages.map fun r =>
                    if r.id == i then { r with lastChecked := now } else r } }
      else
        match createOutageRow now i o with
        | some row =>
            { acc with newIds := acc.newIds ++ [i],
                       db := { acc.db with outages := acc.db.outages ++ [row] } }
        | none => acc

/-- `_process_outages`: fold the loop over `today ++ future`, starting from
the given session state; `now` models the `datetime.utcnow()` readings. -/
def process_outages (now : Int) (db : DB) (data : Payload) : ProcessAcc :=
  (data.today ++ data.future).foldl (processStep now) { db := db }

/-! ### `OutageMonitor._send_notifications` (`bot/monitor.py` lines 118-196)

The Telegram gateway `bot.send_message` is the delivery boundary; its
outcome per `(user, outage)` pair is an explicit oracle. A `TelegramError`
whose text contains "blocked" or "deactivated" is the permanent case
(`bot/monitor.py` line 180), modelled by the Boolean on `telegramErr`;
every other exception is the transient case. -/

/-- Outcome of one `bot.send_message` call. -/
inductive SendOutcome where
  | ok
  | telegramErr (permanentWords : Bool)
  | otherErr
  deriving Repr, DecidableEq

/-- The delivery gateway: outcome per (telegram id, outage id). -/
def SendOracle : Type := Int → String → SendOutcome

/-- Is a `notifications_sent` row present for the pair? (the `already_sent`
query, lines 139-142). -/
def pairMem (db : DB) (u : Int) (oid : String) : Bool :=
  db.notifications.any fun n => n.userId == u && n.outageId == oid

/-- Append a `notifications_sent` row (lines 151-157). -/
def addNotif (db : DB) (u : Int) (oid : String) : DB :=
  { db with notifications := db.notifications ++ [⟨u, oid⟩] }

/-- Mark a user inactive (lines 181-190). -/
def markInactive (db : DB) (u : Int) : DB :=
  { db with users := db.users.map fun r =>
      if r.telegramId == u then { r with isActive := false } else r }

/-- `_send_notification_to_user`: returns whether delivery succeeded; a
permanent Telegram failure also deactivates the user. -/
def send_notification_to_user (oracle : SendOracle) (u : Int) (oid : String) (db : DB) :
    Bool × DB :=
  match oracle u oid with
  | .ok => (true, db)
  | .telegramErr perm => (false, if perm then markInactive db u else db)
  | .otherErr => (false, db)

/-- The per-outage user loop (lines 137-160): skip pairs with an existing
record, otherwise attempt delivery and record it only on success. Returns
the state, the attempted pairs and the successfully delivered pairs, in
order. -/
def userLoop (oracle : SendOracle) (oid : String) (db : DB) :
    List (Int × String) → DB × List (Int × String) × List (Int × String)
  | [] => (db, [], [])
  | (u, _lang) :: rest =>
      if pairMem db u oid then userLoop oracle oid db rest
      else
        match send_notification_to_user oracle u oid db with
        | (true, db1) =>
            let r := userLoop oracle oid (addNotif db1 u oid) rest
            (r.1, (u, oid) :: r.2.1, (u, oid) :: r.2.2)
        | (false, db1) =>
            let r := userLoop oracle oid db1 rest
            (r.1, (u, oid) :: r.2.1, r.2.2)

/-- `_send_notifications` (lines 118-166): for each new outage id, resolve
the outage, fetch the active subscribers of its locality with their
languages, and run the user loop. Returns the state, all attempted pairs
and all delivered pairs. -/
def send_notifications (oracle : SendOracle) (db : DB) :
    List String → DB × List (Int × String) × List (Int × String)
  | [] => (db, [], [])
  | oid :: rest =>
      match db.outages.find? (fun r => r.id == oid) with
      | none => send_notifications oracle db rest
      | some outage =>
          let r := userLoop oracle oid db (get_users_with_language_for_locality db outage.locality)
          let r2 := send_notifications oracle r.1 rest
          (r2.1, r.2.1 ++ r2.2.1, r.2.2 ++ r2.2.2)

/-- A whole dispatch invocation sequence: each run carries its own delivery
oracle and list of new outage ids, threading the stored state. Returns the
final state and every delivered pair of every run. -/
def runDispatches : List (SendOracle × List String) → DB → DB × List (Int × String)
  | [], db => (db, [])
  | (oracle, ids) :: rest, db =>
      let r := send_notifications oracle db ids
      let r2 := runDispatches rest r.1
      (r2.1, r.2.2 ++ r2.2)

/-! ### Helper lemmas: digest shape -/

/-- An MD5 hex digest has exactly 32 characters. -/
theorem md5Hex_length (m : List Nat) : (md5Hex m).length = 32 := rfl

/-- An MD5 hex digest is never the empty string. -/
theorem md5Hex_ne_empty (m : List Nat) : md5Hex m ≠ "" := by
  intro h
  have hl := congrArg String.length h
  rw [md5Hex_length] at hl
  simp at hl

/-- Value of a hex digit character. -/
def hexVal (c : Char) : Nat :=
  if c = '0' then 0 else if c = '1' then 1 else if c = '2' then 2
  else if c = '3' then 3 else if c = '4' then 4 else if c = '5' then 5
  else if c = '6' then 6 else if c = '7' then 7 else if c = '8' then 8
  else if c = '9' then 9 else if c = 'a' then 10 else if c = 'b' then 11
  else if c = 'c' then 12 else if c = 'd' then 13 else if c = 'e' then 14
  else if c = 'f' then 15 else 0

/-- `hexVal` inverts `hexDigit` below 16. -/
theorem hexVal_hexDigit : ∀ k < 16, hexVal (hexDigit k) = k := by decide

/-- Every `hexDigit` value is one of the sixteen digit characters. -/
theorem hexDigit_mem (n : Nat) : hexDigit n ∈ hexDigitList := by
  by_cases hn : n < 16
  · interval_cases n <;> decide
  · have h0 : hexDigit n = '0' := by
      unfold hexDigit
      rw [List.getD_eq_default]
      have hlen : hexDigitList.length = 16 := rfl
      omega
    rw [h0]; decide

/-- Every character of a flattened hex-byte rendering is a hex digit. -/
theorem mem_flatten_hexByte {ch : Char} {bs : List Nat}
    (h : ch ∈ ((bs.map hexByte).flatten)) : ch ∈ hexDigitList := by
  rw [List.mem_flatten] at h
  obtain ⟨l, hl, hch⟩ := h
  rw [List.mem_map] at hl
  obtain ⟨b, -, rfl⟩ := hl
  simp only [hexByte, List.mem_cons, List.not_mem_nil, or_false] at hch
  rcases hch with rfl | rfl
  · exact hexDigit_mem _
  · exact hexDigit_mem _

/-- Every character of an MD5 hex digest is a lowercase hex digit. -/
theorem md5Hex_chars (m : List Nat) : ∀ ch ∈ (md5Hex m).data, ch ∈ hexDigitList :=
  fun _ hch => mem_flatten_hexByte hch

/-! ### Helper lemmas: MD5 word bounds and finite-range collisions -/

/-- All four digest state words are below `2^32`. -/
def md5Bounded (st : Nat × Nat × Nat × Nat) : Prop :=
  st.1 < 4294967296 ∧ st.2.1 < 4294967296 ∧ st.2.2.1 < 4294967296 ∧ st.2.2.2 < 4294967296

/-- A chunk step always produces bounded words: each output component is an
explicit reduction modulo `2^32`. -/
theorem md5Chunk_bounded (st : Nat × Nat × Nat × Nat) (ch : List Nat) :
    md5Bounded (md5Chunk st ch) := by
  refine ⟨?_, ?_, ?_, ?_⟩ <;> exact Nat.mod_lt _ (by norm_num)

/-- Folding chunk steps preserves boundedness. -/
theorem foldl_md5Chunk_bounded (chunks : List (List Nat)) (st : Nat × Nat × Nat × Nat)
    (h : md5Bounded st) : md5Bounded (chunks.foldl md5Chunk st) := by
  induction chunks generalizing st with
  | nil => exact h
  | cons c cs ih => exact ih _ (md5Chunk_bounded st c)

/-- The digest words of any message are bounded. -/
theorem md5WordsOf_bounded (msg : List Nat) : md5Bounded (md5WordsOf msg) :=
  foldl_md5Chunk_bounded _ _ (by norm_num [md5Bounded])

/-- The four digest words packed into one number below `2^128`. -/
def encodeWords (st : Nat × Nat × Nat × Nat) : Nat :=
  st.1 + 4294967296 * st.2.1 + 18446744073709551616 * st.2.2.1 +
    79228162514264337593543950336 * st.2.2.2

/-- Bounded word quadruples with equal encodings are equal. -/
theorem encodeWords_inj {s1 s2 : Nat × Nat × Nat × Nat}
    (h1 : md5Bounded s1) (h2 : md5Bounded s2)
    (h : encodeWords s1 = encodeWords s2) : s1 = s2 := by
  obtain ⟨a1, b1, c1, d1⟩ := s1
  obtain ⟨a2, b2, c2, d2⟩ := s2
  obtain ⟨ha1, hb1, hc1, hd1⟩ := h1
  obtain ⟨ha2, hb2, hc2, hd2⟩ := h2
  unfold encodeWords at h
  simp only [md5Bounded] at *
  have : a1 = a2 ∧ b1 = b2 ∧ c1 = c2 ∧ d1 = d2 := by omega
  simp [this.1, this.2.1, this.2.2.1, this.2.2.2]

/-- Pigeonhole over the 128-bit digest range: any family of byte messages
indexed by all of `Nat` contains two distinct indices with equal MD5 hex
digests. This is the cardinality fact that makes unconditional
collision-freeness claims about a 128-bit hash unprovable — and false. -/
theorem md5_family_collision (f : Nat → List Nat) :
    ∃ x y : Nat, x ≠ y ∧ md5Hex (f x) = md5Hex (f y) := by
  have hc : (Finset.range 340282366920938463463374607431768211456).card <
      (Finset.range (340282366920938463463374607431768211456 + 1)).card := by
    rw [Finset.card_range, Finset.card_range]
    omega
  have hmap : ∀ a ∈ Finset.range (340282366920938463463374607431768211456 + 1),
      encodeWords (md5WordsOf (f a)) ∈
        Finset.range 340282366920938463463374607431768211456 := by
    intro a _
    obtain ⟨h1, h2, h3, h4⟩ := md5WordsOf_bounded (f a)
    rw [Finset.mem_range]
    unfold encodeWords
    omega
  obtain ⟨x, -, y, -, hxy, heq⟩ :=
    Finset.exists_ne_map_eq_of_card_lt_of_maps_to hc hmap
  have hw : md5WordsOf (f x) = md5WordsOf (f y) :=
    encodeWords_inj (md5WordsOf_bounded _) (md5WordsOf_bounded _) heq
  exact ⟨x, y, hxy, congrArg md5HexOfWords hw⟩

/-- Strings indexed by `Nat`: distinct indices give distinct strings. -/
def natString (n : Nat) : String := String.mk (List.replicate n 'a')

/-- `natString` is injective. -/
theorem natString_inj {n m : Nat} (h : natString n = natString m) : n = m := by
  have hd : List.replicate n 'a' = List.replicate m 'a' := congrArg String.data h
  have hl := congrArg List.length hd
  simpa using hl

/-! ### Helper lemmas: the JSON escaping is invertible, hence injective -/

/-- `jsonEscChar` never produces the empty sequence. -/
theorem jsonEscChar_ne_nil (c : Char) : jsonEscChar c ≠ [] := by
  unfold jsonEscChar
  split_ifs <;> simp

/-- Decode one escaped character from the front of an escaped stream. -/
def unescStep : List Char → Option (Char × List Char)
  | [] => none
  | c :: r =>
      if c = '\\' then
        match r with
        | [] => none
        | m :: r2 =>
            if m = '"' then some ('"', r2)
            else if m = '\\' then some ('\\', r2)
            else if m = 'n' then some ('\n', r2)
            else if m = 't' then some ('\t', r2)
            else if m = 'r' then some ('\r', r2)
            else if m = 'b' then some ('\x08', r2)
            else if m = 'f' then some ('\x0c', r2)
            else if m = 'u' then
              match r2 with
              | z1 :: z2 :: h1 :: h2 :: r3 =>
                  if z1 = '0' ∧ z2 = '0' then
                    some (Char.ofNat (hexVal h1 * 16 + hexVal h2), r3)
                  else none
              | _ => none
            else none
      else some (c, r)

/-- `unescStep` inverts `jsonEscChar` at the front of any stream. -/
theorem unescStep_esc (c : Char) (rest : List Char) :
    unescStep (jsonEscChar c ++ rest) = some (c, rest) := by
  unfold jsonEscChar
  split_ifs with h1 h2 h3 h4 h5 h6 h7 h8
  · subst h1; rfl
  · subst h2; rfl
  · subst h3; rfl
  · subst h4; rfl
  · subst h5; rfl
  · subst h6; rfl
  · subst h7; rfl
  · have hred : unescStep
        (['\\', 'u', '0', '0', hexDigit (c.toNat / 16), hexDigit (c.toNat % 16)] ++ rest) =
        some (Char.ofNat
          (hexVal (hexDigit (c.toNat / 16)) * 16 + hexVal (hexDigit (c.toNat % 16))), rest) := rfl
    rw [hred, hexVal_hexDigit _ (by omega), hexVal_hexDigit _ (by omega)]
    have hdm : c.toNat / 16 * 16 + c.toNat % 16 = c.toNat := by omega
    rw [hdm, Char.ofNat_toNat]
  · simp only [List.cons_append, List.nil_append, unescStep, if_neg h2]

/-- The JSON escaping is injective. -/
theorem jsonEsc_inj (s1 : List Char) : ∀ s2, jsonEsc s1 = jsonEsc s2 → s1 = s2 := by
  induction s1 with
  | nil =>
      intro s2 h
      cases s2 with
      | nil => rfl
      | cons c r =>
          exfalso
          simp only [jsonEsc, List.flatMap_nil, List.flatMap_cons] at h
          exact jsonEscChar_ne_nil c (List.append_eq_nil.mp h.symm).1
  | cons c1 r1 ih =>
      intro s2 h
      cases s2 with
      | nil =>
          exfalso
          simp only [jsonEsc, List.flatMap_nil, List.flatMap_cons] at h
          exact jsonEscChar_ne_nil c1 (List.append_eq_nil.mp h).1
      | cons c2 r2 =>
          simp only [jsonEsc, List.flatMap_cons] at h
          have h2 := congrArg unescStep h
          rw [unescStep_esc, unescStep_esc] at h2
          simp only [Option.some.injEq, Prod.mk.injEq] at h2
          rw [h2.1, ih r2 h2.2]

/-! ### Helper lemmas: deduplication and the HTML pipeline -/

/-- A generated id is never the empty string. -/
theorem generate_outage_id_ne_empty (r : RawOutage) : generate_outage_id r ≠ "" :=
  md5Hex_ne_empty _

/-- Members of the deduplicated list come from the input and carry a
nonempty date and id. -/
theorem removeDupGo_mem {seen : List String} {l : List POutage} {o : POutage}
    (h : o ∈ removeDupGo seen l) : o ∈ l ∧ o.date ≠ "" ∧ o.id ≠ "" := by
  induction l generalizing seen with
  | nil => simp [removeDupGo] at h
  | cons y rest ih =>
      unfold removeDupGo at h
      split_ifs at h with h1 h2
      · obtain ⟨h3, h4, h5⟩ := ih h
        exact ⟨List.mem_cons_of_mem _ h3, h4, h5⟩
      · rcases List.mem_cons.mp h with rfl | hmem
        · exact ⟨List.mem_cons_self _ _, h1, h2.1⟩
        · obtain ⟨h3, h4, h5⟩ := ih hmem
          exact ⟨List.mem_cons_of_mem _ h3, h4, h5⟩
      · obtain ⟨h3, h4, h5⟩ := ih h
        exact ⟨List.mem_cons_of_mem _ h3, h4, h5⟩

/-- The deduplicated ids are pairwise distinct and avoid the `seen` set. -/
theorem removeDupGo_ids_nodup (l : List POutage) : ∀ seen,
    ((removeDupGo seen l).map POutage.id).Nodup ∧
    ∀ i ∈ (removeDupGo seen l).map POutage.id, ¬ seen.contains i := by
  induction l with
  | nil => simp [removeDupGo]
  | cons y rest ih =>
      intro seen
      unfold removeDupGo
      split_ifs with h1 h2
      · exact ih seen
      · refine ⟨?_, ?_⟩
        · simp only [List.map_cons, List.nodup_cons]
          refine ⟨fun hmem => ?_, (ih (y.id :: seen)).1⟩
          have hnc := (ih (y.id :: seen)).2 _ hmem
          simp [List.contains_cons] at hnc
        · intro i hi hcont
          simp only [List.map_cons, List.mem_cons] at hi
          rcases hi with rfl | hi
          · exact h2.2 hcont
          · refine (ih (y.id :: seen)).2 _ hi ?_
            simp only [List.contains_cons, Bool.or_eq_true]
            exact Or.inr hcont
      · exact ih seen

/-- Every member of the deduplicated list is the first input entry bearing
its id among the entries with a nonempty date. -/
theorem removeDupGo_head (l : List POutage) : ∀ seen, ∀ o ∈ removeDupGo seen l,
    ¬ seen.contains o.id ∧
    (l.filter fun x => x.date != "" && x.id == o.id).head? = some o := by
  induction l with
  | nil =>
      intro seen o h
      simp [removeDupGo] at h
  | cons y rest ih =>
      intro seen o h
      have hdup := h
      unfold removeDupGo at h
      split_ifs at h with h1 h2
      · obtain ⟨hs, hh⟩ := ih seen o h
        refine ⟨hs, ?_⟩
        rw [List.filter_cons_of_neg (by simp [h1])]
        exact hh
      · rcases List.mem_cons.mp h with rfl | hmem
        · refine ⟨h2.2, ?_⟩
          rw [List.filter_cons_of_pos (by simp [h1])]
          rfl
        · obtain ⟨hs, hh⟩ := ih (y.id :: seen) o hmem
          have hne : y.id ≠ o.id := by
            intro he
            exact hs (by simp [List.contains_cons, he])
          have hseen : ¬ seen.contains o.id := fun hc =>
            hs (by simp only [List.contains_cons, Bool.or_eq_true]; exact Or.inr hc)
          refine ⟨hseen, ?_⟩
          rw [List.filter_cons_of_neg (by simp [hne])]
          exact hh
      · obtain ⟨hs, hh⟩ := ih seen o h
        have hoid : o.id ≠ "" := (removeDupGo_mem h).2.2
        have hne : y.id ≠ o.id := by
          intro he
          rcases not_and_or.mp h2 with hz | hz
          · exact hoid (he ▸ not_not.mp (by simpa using hz))
          · exact hs (he ▸ not_not.mp hz)
        refine ⟨hs, ?_⟩
        rw [List.filter_cons_of_neg (by simp [hne])]
        exact hh

/-- A row surviving `parse_table_html` carries the given district. -/
theorem parse_table_html_district {rows : List (List String)} {d : String}
    {r : RawOutage} (h : r ∈ parse_table_html rows d) : r.district = d := by
  rw [parse_table_html, List.mem_filterMap] at h
  obtain ⟨cells, -, hc⟩ := h
  split at hc
  · split_ifs at hc
    · cases hc
      rfl
  · exact absurd hc (by simp)

/-- A processed record of a district carries that district name. -/
theorem processDistrict_district {d : String} {rows : List (List String)}
    {o : POutage} (h : o ∈ processDistrict d rows) : o.district = d := by
  have hmem := (removeDupGo_mem h).1
  rw [List.mem_filterMap] at hmem
  obtain ⟨raw, hraw, hpo⟩ := hmem
  have hrd : o.district = raw.district := by
    unfold processOutageRow at hpo
    split at hpo
    · cases hpo
      rfl
    · exact absurd hpo (by simp)
  rw [hrd]
  exact parse_table_html_district hraw

/-- Ids are pairwise distinct within one processed district. -/
theorem processDistrict_ids_nodup (d : String) (rows : List (List String)) :
    ((processDistrict d rows).map POutage.id).Nodup :=
  (removeDupGo_ids_nodup _ []).1

/-- All processed records of a snapshot, across districts, in order. -/
def allProcessed (dd : List (String × List (List String))) : List POutage :=
  (dd.map fun p => processDistrict p.1 p.2).flatten

/-- Every processed record's district is one of the snapshot's keys, via
its own district entry. -/
theorem allProcessed_mem {dd : List (String × List (List String))} {o : POutage}
    (h : o ∈ allProcessed dd) :
    ∃ p ∈ dd, o.district = p.1 ∧ o ∈ processDistrict p.1 p.2 := by
  rw [allProcessed, List.mem_flatten] at h
  obtain ⟨l, hl, ho⟩ := h
  rw [List.mem_map] at hl
  obtain ⟨p, hp, rfl⟩ := hl
  exact ⟨p, hp, processDistrict_district ho, ho⟩

/-- With pairwise-distinct district keys and no cross-district id
coincidence among the snapshot's processed records, all ids of the
snapshot are pairwise distinct. -/
theorem allProcessed_ids_nodup (dd : List (String × List (List String)))
    (hkeys : (dd.map Prod.fst).Nodup)
    (hcol : ∀ o1 ∈ allProcessed dd, ∀ o2 ∈ allProcessed dd,
      o1.district ≠ o2.district → o1.id ≠ o2.id) :
    ((allProcessed dd).map POutage.id).Nodup := by
  induction dd with
  | nil => simp [allProcessed]
  | cons p rest ih =>
      have hall : allProcessed (p :: rest) =
          processDistrict p.1 p.2 ++ allProcessed rest := by
        simp [allProcessed]
      rw [hall, List.map_append, List.nodup_append]
      rw [List.map_cons, List.nodup_cons] at hkeys
      have hsub : ∀ o ∈ allProcessed rest, o ∈ allProcessed (p :: rest) := by
        intro o ho
        rw [hall]
        exact List.mem_append_right _ ho
      refine ⟨processDistrict_ids_nodup _ _, ih hkeys.2 ?_, ?_⟩
      · intro o1 h1 o2 h2 hd
        exact hcol o1 (hsub _ h1) o2 (hsub _ h2) hd
      · intro i h1 h2
        obtain ⟨o1, ho1, rfl⟩ := List.mem_map.mp h1
        obtain ⟨o2, ho2, heq⟩ := List.mem_map.mp h2
        have hd1 : o1.district = p.1 := processDistrict_district ho1
        obtain ⟨q, hq, hd2, -⟩ := allProcessed_mem ho2
        have hdne : o1.district ≠ o2.district := by
          rw [hd1, hd2]
          intro hpq
          exact hkeys.1 (hpq ▸ List.mem_map_of_mem Prod.fst hq)
        have hm1 : o1 ∈ allProcessed (p :: rest) := by
          rw [hall]
          exact List.mem_append_left _ ho1
        exact hcol o1 hm1 o2 (hsub _ ho2) hdne heq.symm

/-! ### Helper lemmas for categorization -/

/-- The membership test of the today bucket: a present start whose local
reading is at or before the end-of-day boundary. -/
def inToday (eod : Int) (o : POutage) : Bool :=
  match o.fromT with
  | none => false
  | some ft => decide (toLocal ft ≤ eod)

/-- The membership test of the future bucket: a present start whose local
reading is after the end-of-day boundary. -/
def inFuture (eod : Int) (o : POutage) : Bool :=
  match o.fromT with
  | none => false
  | some ft => decide (eod < toLocal ft)

/-- The categorization worker computes exactly the two filters. -/
theorem catGo_eq_filter (eod : Int) (l : List POutage) :
    catGo eod l = (l.filter (inToday eod), l.filter (inFuture eod)) := by
  induction l with
  | nil => rfl
  | cons o rest ih =>
      cases h : o.fromT with
      | none => simp [catGo, ih, List.filter_cons, inToday, inFuture, h]
      | some ft =>
          by_cases hle : toLocal ft ≤ eod
          · simp [catGo, ih, List.filter_cons, inToday, inFuture, h, hle, not_lt.mpr hle]
          · simp [catGo, ih, List.filter_cons, inToday, inFuture, h, hle, lt_of_not_le hle]

/-- The spec's millisecond day boundary, 23:59:59.999 local time on the
calendar day of `now`. -/
def specBoundary999 (now : Int) : Int := now - now % usPerDay + 86399999000

/-- A record is never sorted into both buckets. -/
theorem not_inToday_and_inFuture (eod : Int) (o : POutage) :
    ¬ (inToday eod o = true ∧ inFuture eod o = true) := by
  unfold inToday inFuture
  cases o.fromT with
  | none => simp
  | some ft => simp

/-- Counting elements satisfying `pr` across two disjoint filters never
exceeds the count in the source list. -/
theorem countP_two_filters_le (p q pr : POutage → Bool)
    (hpq : ∀ a, ¬ (p a = true ∧ q a = true)) :
    ∀ l : List POutage,
      (l.filter p).countP pr + (l.filter q).countP pr ≤ l.countP pr := by
  intro l
  induction l with
  | nil => simp
  | cons a rest ih =>
      rw [List.countP_cons]
      by_cases hp : p a
      · rw [List.filter_cons_of_pos hp, List.filter_cons_of_neg (by
          intro hq
          exact hpq a ⟨hp, hq⟩), List.countP_cons]
        omega
      · rw [List.filter_cons_of_neg (by simpa using hp)]
        by_cases hq : q a
        · rw [List.filter_cons_of_pos hq, List.countP_cons]
          omega
        · rw [List.filter_cons_of_neg (by simpa using hq)]
          omega

/-- If the ids of the categorizer's input are pairwise distinct, so are
the ids of the two buckets combined. -/
theorem nodup_catGo_append (eod : Int) (all : List POutage)
    (h : (all.map POutage.id).Nodup) :
    (((catGo eod all).1 ++ (catGo eod all).2).map POutage.id).Nodup := by
  rw [catGo_eq_filter]
  dsimp only
  rw [List.nodup_iff_count_le_one] at h ⊢
  intro a
  have hcnt : ∀ l : List POutage, (l.map POutage.id).count a =
      l.countP fun o => o.id == a := by
    intro l
    rw [List.count, List.countP_map]
    rfl
  rw [List.map_append, List.count_append, hcnt, hcnt]
  have hb := countP_two_filters_le (inToday eod) (inFuture eod)
    (fun o => o.id == a) (not_inToday_and_inFuture eod) all
  have ha := h a
  rw [hcnt] at ha
  omega


/-- Deduplication keeps a single valid record. -/
theorem removeDupGo_singleton (o : POutage) (hdate : o.date ≠ "") (hid : o.id ≠ "") :
    remove_duplicates [o] = [o] := by
  show removeDupGo [] [o] = [o]
  unfold removeDupGo
  rw [if_neg hdate, if_pos ⟨hid, by simp⟩]
  rfl

/-- Processing a district holding one copy of the example row yields the
single processed record, for any district name. -/
theorem processDistrict_example_row (d : String) :
    processDistrict d
        [["Le dimanche 13 mars 2022 de 09:30:00 à 13:00:00", "TAMARIN", "AVE DES MARLINS"]] =
      [{ id := generate_outage_id
            { date := "Le dimanche 13 mars 2022 de 09:30:00 à 13:00:00",
              locality := "TAMARIN", streets := "AVE DES MARLINS", district := d },
         date := "Le dimanche 13 mars 2022 de 09:30:00 à 13:00:00", locality := "TAMARIN",
         streets := "AVE DES MARLINS", district := d,
         fromT := some (utcUs 2022 3 13 5 30 0), toT := some (utcUs 2022 3 13 9 0 0) }] := by
  unfold processDistrict
  have h1 : (parse_table_html
      [["Le dimanche 13 mars 2022 de 09:30:00 à 13:00:00", "TAMARIN", "AVE DES MARLINS"]]
      d).filterMap processOutageRow =
      [{ id := generate_outage_id
            { date := "Le dimanche 13 mars 2022 de 09:30:00 à 13:00:00",
              locality := "TAMARIN", streets := "AVE DES MARLINS", district := d },
         date := "Le dimanche 13 mars 2022 de 09:30:00 à 13:00:00", locality := "TAMARIN",
         streets := "AVE DES MARLINS", district := d,
         fromT := some (utcUs 2022 3 13 5 30 0), toT := some (utcUs 2022 3 13 9 0 0) }] := rfl
  rw [h1]
  refine removeDupGo_singleton _ ?_ (generate_outage_id_ne_empty _)
  show ("Le dimanche 13 mars 2022 de 09:30:00 à 13:00:00" : String) ≠ ""
  decide

/-! ### Claims C6, C7, C9 -/

/-- C2 (counterexample): "changing streets alone changes the fingerprint"
is false as a universal statement about a 128-bit digest: by pigeonhole
over the `2^128` possible digests, there exist two records identical in
date, locality, district and the from/to fields whose streets differ and
whose generated ids coincide. No concrete colliding pair is known, but the
existence is a theorem of cardinality. -/
theorem claim_C2_counterexample :
    ∃ r1 r2 : RawOutage,
      r1.date = r2.date ∧ r1.locality = r2.locality ∧ r1.district = r2.district ∧
      r1.fromT = r2.fromT ∧ r1.toT = r2.toT ∧ r1.streets ≠ r2.streets ∧
      generate_outage_id r1 = generate_outage_id r2 := by
  obtain ⟨x, y, hxy, hcol⟩ := md5_family_collision fun n =>
    (serializeOutage "Le dimanche 13 mars 2022 de 09:30:00 à 13:00:00" "TAMARIN"
      (natString n) "blackriver").flatMap utf8Char
  refine ⟨{ date := "Le dimanche 13 mars 2022 de 09:30:00 à 13:00:00", locality := "TAMARIN",
            streets := natString x, district := "blackriver" },
          { date := "Le dimanche 13 mars 2022 de 09:30:00 à 13:00:00", locality := "TAMARIN",
            streets := natString y, district := "blackriver" },
          rfl, rfl, rfl, rfl, rfl, ?_, ?_⟩
  · intro h
    exact hxy (natString_inj h)
  · exact hcol

/-- C2 (amended): the fingerprint is a pure function of exactly the four
fields date, locality, streets, district — two records agreeing on them
hash identically, and the from/to fields never influence the id; the
output is a 32-character string of lowercase hexadecimal digits encoding
the 128-bit MD5 state; changing streets alone always changes the
canonical serialization, and changes the fingerprint except in the
pigeonhole-forced event of an MD5 collision between the two serializations
(on the repository's example record a changed street does change it). -/
theorem claim_C2_fingerprint :
    (∀ r1 r2 : RawOutage, r1.date = r2.date → r1.locality = r2.locality →
        r1.streets = r2.streets → r1.district = r2.district →
        generate_outage_id r1 = generate_outage_id r2) ∧
    (∀ (r : RawOutage) (f t : Option Int),
        generate_outage_id { r with fromT := f, toT := t } = generate_outage_id r) ∧
    (∀ r : RawOutage, (generate_outage_id r).length = 32 ∧
        ∀ ch ∈ (generate_outage_id r).data, ch ∈ hexDigitList) ∧
    (∀ r1 r2 : RawOutage, r1.date = r2.date → r1.locality = r2.locality →
        r1.district = r2.district → r1.streets ≠ r2.streets →
        serializeOutage r1.date r1.locality r1.streets r1.district ≠
          serializeOutage r2.date r2.locality r2.streets r2.district) ∧
    generate_outage_id
        { date := "Le dimanche 13 mars 2022 de 09:30:00 à 13:00:00", locality := "TAMARIN",
          streets := "AVE DES MARLINS", district := "blackriver" } ≠
      generate_outage_id
        { date := "Le dimanche 13 mars 2022 de 09:30:00 à 13:00:00", locality := "TAMARIN",
          streets := "OTHER ST", district := "blackriver" } := by
  refine ⟨?_, ?_, ?_, ?_, ?_⟩
  · intro r1 r2 h1 h2 h3 h4
    simp only [generate_outage_id, h1, h2, h3, h4]
  · intro r f t
    rfl
  · intro r
    exact ⟨md5Hex_length _, md5Hex_chars _⟩
  · intro r1 r2 hd hl hdi hs hser
    apply hs
    rw [hd, hl, hdi] at hser
    unfold serializeOutage at hser
    have h1 := List.append_cancel_right hser
    have h2 := List.append_cancel_right h1
    have h3 := List.append_cancel_right h2
    have h4 := List.append_cancel_left h3
    have hdata : r1.streets.data = r2.streets.data := jsonEsc_inj _ _ h4
    calc r1.streets = String.mk r1.streets.data := rfl
      _ = String.mk r2.streets.data := by rw [hdata]
      _ = r2.streets := rfl
  · decide

/-- C2 (witness): the amended theorem applied at concrete records — the
from/to fields do not change the id, and two records differing only in
streets serialize differently. -/
theorem claim_C2_witness :
    generate_outage_id
        { date := "D", locality := "L", streets := "S", district := "X",
          fromT := some 1, toT := some 2 } =
      generate_outage_id { date := "D", locality := "L", streets := "S", district := "X" } ∧
    serializeOutage "D" "L" "S1" "X" ≠ serializeOutage "D" "L" "S2" "X" :=
  ⟨claim_C2_fingerprint.2.1 { date := "D", locality := "L", streets := "S", district := "X" }
      (some 1) (some 2),
   claim_C2_fingerprint.2.2.2.1
     { date := "D", locality := "L", streets := "S1", district := "X" }
     { date := "D", locality := "L", streets := "S2", district := "X" }
     rfl rfl rfl (by decide)⟩

/-- C6 (counterexample): the code's boundary is 23:59:59.999999, not the
claimed 23:59:59.999. A record whose local start is 23:59:59.999500 —
strictly later than the claimed boundary — is still placed in "today",
with "future" left empty, refuting "every record whose local start is
later than that boundary is placed in future". The clock reads local noon
of 2022-03-13; the record starts half a millisecond after the claimed
boundary of that day. -/
theorem claim_C6_counterexample :
    specBoundary999 (localUs 2022 3 13 12 0 0) <
      toLocal (localUs 2022 3 13 23 59 59 + 999500 - mauOffsetUs) ∧
    (categorize_outages
        [("D", [{ id := "x", date := "d", locality := "L", streets := "", district := "D",
                  fromT := some (localUs 2022 3 13 23 59 59 + 999500 - mauOffsetUs) }])]
        (localUs 2022 3 13 12 0 0)).today =
      [{ id := "x", date := "d", locality := "L", streets := "", district := "D",
         fromT := some (localUs 2022 3 13 23 59 59 + 999500 - mauOffsetUs) }] ∧
    (categorize_outages
        [("D", [{ id := "x", date := "d", locality := "L", streets := "", district := "D",
                  fromT := some (localUs 2022 3 13 23 59 59 + 999500 - mauOffsetUs) }])]
        (localUs 2022 3 13 12 0 0)).future = [] := by decide

/-- C6 (amended): with the day boundary at 23:59:59.999999 local time (the
code's `microsecond=999999` replacement), the today bucket is exactly the
records whose local start is at or before that boundary and the future
bucket exactly those after it, in input order; in particular a start at
exactly 23:59:59.999 local is categorized "today" and a start one second
later is categorized "future". -/
theorem claim_C6_categorization_boundary (obd : List (String × List POutage)) (now : Int) :
    (categorize_outages obd now).today =
      ((obd.map Prod.snd).flatten).filter (inToday (endOfToday now)) ∧
    (categorize_outages obd now).future =
      ((obd.map Prod.snd).flatten).filter (inFuture (endOfToday now)) ∧
    (∀ o : POutage, ∀ ft : Int, o ∈ (obd.map Prod.snd).flatten → o.fromT = some ft →
      (toLocal ft ≤ endOfToday now → o ∈ (categorize_outages obd now).today) ∧
      (endOfToday now < toLocal ft → o ∈ (categorize_outages obd now).future) ∧
      (toLocal ft = specBoundary999 now → o ∈ (categorize_outages obd now).today) ∧
      (toLocal ft = specBoundary999 now + 1000000 →
        o ∈ (categorize_outages obd now).future)) := by
  have hc : categorize_outages obd now =
      { today := ((obd.map Prod.snd).flatten).filter (inToday (endOfToday now)),
        future := ((obd.map Prod.snd).flatten).filter (inFuture (endOfToday now)) } := by
    simp only [categorize_outages, catGo_eq_filter]
  refine ⟨by rw [hc], by rw [hc], ?_⟩
  intro o ft hmem hft
  have h999 : specBoundary999 now ≤ endOfToday now := by
    simp only [specBoundary999, endOfToday]; omega
  refine ⟨fun hle => ?_, fun hlt => ?_, fun heq => ?_, fun heq => ?_⟩
  · rw [hc]; exact List.mem_filter.mpr ⟨hmem, by simp [inToday, hft, hle]⟩
  · rw [hc]; exact List.mem_filter.mpr ⟨hmem, by simp [inFuture, hft, hlt]⟩
  · rw [hc]
    exact List.mem_filter.mpr ⟨hmem, by simp [inToday, hft]; omega⟩
  · rw [hc]
    refine List.mem_filter.mpr ⟨hmem, ?_⟩
    simp only [inFuture, hft, decide_eq_true_eq]
    simp only [specBoundary999, endOfToday] at heq ⊢
    omega

/-- C6 (witness): the amended boundary characterization on a concrete
snapshot: a record starting at exactly 23:59:59.999 local on the clock's
day lands in the today bucket. -/
theorem claim_C6_witness :
    ({ id := "x", date := "d", locality := "L", streets := "", district := "D",
       fromT := some (specBoundary999 (localUs 2022 3 13 12 0 0) - mauOffsetUs) } : POutage) ∈
      (categorize_outages
        [("D", [{ id := "x", date := "d", locality := "L", streets := "", district := "D",
                  fromT := some (specBoundary999 (localUs 2022 3 13 12 0 0) - mauOffsetUs) }])]
        (localUs 2022 3 13 12 0 0)).today :=
  ((claim_C6_categorization_boundary _ _).2.2 _ _ (by decide) rfl).2.2.1 (by decide)

/-- C7: parsing "Le dimanche 13 mars 2022 de 09:30:00 à 13:00:00" in the
fixed UTC+4 zone yields the UTC instants 2022-03-13T05:30:00Z and
2022-03-13T09:00:00Z. -/
theorem claim_C7_date_parsing_example :
    parse_french_date "Le dimanche 13 mars 2022 de 09:30:00 à 13:00:00" =
      some (utcUs 2022 3 13 5 30 0, utcUs 2022 3 13 9 0 0) := by decide

/-- Time of day in microseconds. -/
def todUs (h m s : Nat) : Int := ((h * 3600 + m * 60 + s : Nat) : Int) * 1000000

/-- A successful component parse only emits validated `datetime` fields:
the time-of-day components are within range. -/
theorem parseDateComponents_bounds {s : String} {p : FrenchDate}
    (hp : parseDateComponents s = some p) :
    p.fromH ≤ 23 ∧ p.fromM ≤ 59 ∧ p.fromS ≤ 59 ∧
    p.toH ≤ 23 ∧ p.toM ≤ 59 ∧ p.toS ≤ 59 := by
  unfold parseDateComponents at hp
  split at hp
  · split_ifs at hp with hcond
    · split at hp
      · exact absurd hp (by simp)
      · simp only [] at hp
        split_ifs at hp with hval
        · cases hp
          obtain ⟨-, -, -, h4, h5, h6, h7, h8, h9⟩ := hval
          exact ⟨h4, h5, h6, h7, h8, h9⟩
  · exact absurd hp (by simp)

/-- The local start and naive local end of a parsed date differ exactly by
the difference of the two times of day. -/
theorem local_sub_eq_tod_sub (p : FrenchDate) :
    toLocalUs p - fromLocalUs p = todUs p.toH p.toM p.toS - todUs p.fromH p.fromM p.fromS := by
  simp only [toLocalUs, fromLocalUs, localUs, todUs]
  ring

/-- C8: whenever `parse_french_date` succeeds, the returned end instant is
at or after the returned start instant; the end is the naive same-day end
shifted by one day exactly when the end time-of-day is numerically less
than the start time-of-day, and the naive end otherwise, each converted
from the fixed UTC+4 zone to UTC. -/
theorem claim_C8_overnight_span (s : String) (f t : Int)
    (hp : parse_french_date s = some (f, t)) :
    f ≤ t ∧
    ∀ p : FrenchDate, parseDateComponents s = some p →
      f = fromLocalUs p - mauOffsetUs ∧
      (todUs p.toH p.toM p.toS < todUs p.fromH p.fromM p.fromS →
        t = (toLocalUs p + usPerDay) - mauOffsetUs) ∧
      (todUs p.fromH p.fromM p.fromS ≤ todUs p.toH p.toM p.toS →
        t = toLocalUs p - mauOffsetUs) := by
  unfold parse_french_date at hp
  obtain ⟨p, hps, hres⟩ := Option.map_eq_some'.mp hp
  obtain ⟨hfh, hfm, hfs, hth, htm, hts⟩ := parseDateComponents_bounds hps
  have htod := local_sub_eq_tod_sub p
  have hfbound : todUs p.fromH p.fromM p.fromS ≤ 86399000000 := by
    simp only [todUs]
    have : p.fromH * 3600 + p.fromM * 60 + p.fromS ≤ 86399 := by omega
    omega
  have htbound : (0 : Int) ≤ todUs p.toH p.toM p.toS := by
    simp only [todUs]; positivity
  have hcases : resolveTimes p =
      (fromLocalUs p - mauOffsetUs,
        (if toLocalUs p < fromLocalUs p then toLocalUs p + usPerDay else toLocalUs p) -
          mauOffsetUs) := rfl
  rw [hcases] at hres
  have hf : f = fromLocalUs p - mauOffsetUs := (Prod.mk.injEq _ _ _ _ ▸ hres).1.symm
  have ht : t = (if toLocalUs p < fromLocalUs p then toLocalUs p + usPerDay
      else toLocalUs p) - mauOffsetUs := (Prod.mk.injEq _ _ _ _ ▸ hres).2.symm
  constructor
  · rw [hf, ht]
    by_cases hlt : toLocalUs p < fromLocalUs p
    · rw [if_pos hlt]
      simp only [usPerDay]
      omega
    · rw [if_neg hlt]
      omega
  · intro p' hps'
    have hpp : p' = p := by
      rw [hps] at hps'
      exact (Option.some.injEq _ _ ▸ hps').symm
    subst hpp
    refine ⟨hf, fun hlt => ?_, fun hle => ?_⟩
    · rw [ht, if_pos (by omega)]
    · rw [ht, if_neg (by omega)]

/-- C8 (witness): the theorem applied to a concrete overnight string — the
end 01:30 precedes the start 23:00, so the resolved span is positive and
the end lands on the next day. -/
theorem claim_C8_witness :
    ∃ f t : Int,
      parse_french_date "Le lundi 1 janvier 2024 de 23:00:00 à 01:30:00" = some (f, t) ∧
      f ≤ t := by
  have h : parse_french_date "Le lundi 1 janvier 2024 de 23:00:00 à 01:30:00" =
      some (resolveTimes ⟨2024, 1, 1, 23, 0, 0, 1, 30, 0⟩) := by decide
  exact ⟨_, _, h, (claim_C8_overnight_span _ _ _ h).1⟩

/-- C9 (counterexample): the JSON-feed variant does not report two
distinguishable failure kinds — `_fetch_outages` catches both the HTTP
error and the malformed payload and returns the same empty dictionary for
each, so no caller can tell them apart, and no `FetchError` or
`SourceFormatError` is ever raised. -/
theorem claim_C9_counterexample :
    fetch_outages .httpError = fetch_outages .malformedBody ∧
    fetch_outages .httpError = ({} : Payload) :=
  ⟨rfl, rfl⟩

/-- C9 (amended): the HTML variant does distinguish the two kinds — a
fetch failure propagates as the HTTP error while a missing or invalid
`arDistrictLocations` assignment makes `extract_district_data` return an
empty mapping and `fetch_and_parse_outages` raise the distinct
`ValueError` — but the JSON-feed variant collapses both kinds to the same
empty payload, indistinguishable to its caller. -/
theorem claim_C9_error_taxonomy :
    (∀ now, fetch_and_parse_outages .fetchFail now = .error .httpError) ∧
    (∀ now, fetch_and_parse_outages (.page .absent) now = .error .noDistrictData) ∧
    (∀ now, fetch_and_parse_outages (.page (.found none)) now = .error .noDistrictData) ∧
    PipelineError.httpError ≠ PipelineError.noDistrictData ∧
    fetch_outages .httpError = ({} : Payload) ∧
    fetch_outages .malformedBody = ({} : Payload) :=
  ⟨fun _ => rfl, fun _ => rfl, fun _ => rfl, by decide, rfl, rfl⟩

/-! ### Helper lemmas: the notification dispatcher -/

/-- A user is active in the stored state: some `users` row with their
telegram id has the active flag set. -/
def userActive (db : DB) (u : Int) : Prop :=
  ∃ r ∈ db.users, r.telegramId = u ∧ r.isActive = true

/-- The `already_sent` query holds exactly when the notification row for
the pair is stored. -/
theorem pairMem_iff (db : DB) (u : Int) (oid : String) :
    pairMem db u oid = true ↔ (⟨u, oid⟩ : NotifRow) ∈ db.notifications := by
  unfold pairMem
  rw [List.any_eq_true]
  constructor
  · rintro ⟨n, hn, hb⟩
    simp only [Bool.and_eq_true, beq_iff_eq] at hb
    obtain ⟨h1, h2⟩ := hb
    have hne : n = ⟨u, oid⟩ := by
      cases n
      simp_all
    rwa [hne] at hn
  · intro hn
    exact ⟨⟨u, oid⟩, hn, by simp⟩

/-- The delivery call never touches the notification rows. -/
theorem send_notifs (oracle : SendOracle) (u : Int) (oid : String) (db : DB) :
    (send_notification_to_user oracle u oid db).2.notifications = db.notifications := by
  unfold send_notification_to_user
  cases oracle u oid with
  | ok => rfl
  | telegramErr perm => cases perm <;> rfl
  | otherErr => rfl

/-- The delivery call never touches the outage rows. -/
theorem send_outages (oracle : SendOracle) (u : Int) (oid : String) (db : DB) :
    (send_notification_to_user oracle u oid db).2.outages = db.outages := by
  unfold send_notification_to_user
  cases oracle u oid with
  | ok => rfl
  | telegramErr perm => cases perm <;> rfl
  | otherErr => rfl

/-- The delivery call succeeds exactly on the ok outcome. -/
theorem send_fst (oracle : SendOracle) (u : Int) (oid : String) (db : DB) :
    (send_notification_to_user oracle u oid db).1 = true ↔ oracle u oid = .ok := by
  unfold send_notification_to_user
  cases oracle u oid with
  | ok => simp
  | telegramErr perm => cases perm <;> simp
  | otherErr => simp

/-- A user already inactive stays inactive under `markInactive`. -/
theorem markInactive_preserves_inactive {db : DB} {u : Int} (w : Int)
    (h : ¬ userActive db u) : ¬ userActive (markInactive db w) u := by
  rintro ⟨r, hr, hid, hact⟩
  rw [markInactive, List.mem_map] at hr
  obtain ⟨r0, hr0, hmap⟩ := hr
  apply h
  refine ⟨r0, hr0, ?_⟩
  by_cases hb : r0.telegramId == w
  · rw [if_pos hb] at hmap
    rw [← hmap] at hact
    exact absurd hact (by simp)
  · rw [if_neg hb] at hmap
    rw [hmap]
    exact ⟨hid, hact⟩

/-- Marking a user inactive makes them inactive. -/
theorem markInactive_inactive (db : DB) (u : Int) : ¬ userActive (markInactive db u) u := by
  rintro ⟨r, hr, hid, hact⟩
  rw [markInactive, List.mem_map] at hr
  obtain ⟨r0, hr0, hmap⟩ := hr
  by_cases hb : r0.telegramId == u
  · rw [if_pos hb] at hmap
    rw [← hmap] at hact
    exact absurd hact (by simp)
  · rw [if_neg hb] at hmap
    rw [← hmap] at hid
    exact hb (by simp [hid])

/-- The delivery call preserves inactivity of every user. -/
theorem send_preserves_inactive (oracle : SendOracle) (v : Int) (oid : String) (db : DB)
    {u : Int} (h : ¬ userActive db u) :
    ¬ userActive (send_notification_to_user oracle v oid db).2 u := by
  unfold send_notification_to_user
  cases oracle v oid with
  | ok => exact h
  | telegramErr perm =>
      cases perm
      · exact h
      · exact markInactive_preserves_inactive v h
  | otherErr => exact h

/-- Every target of the subscriber query is an active user. -/
theorem targets_active {db : DB} {name : String} {v : Int} {lang : String}
    (h : (v, lang) ∈ get_users_with_language_for_locality db name) : userActive db v := by
  unfold get_users_with_language_for_locality at h
  rw [List.mem_flatMap] at h
  obtain ⟨r, hr, hv⟩ := h
  rw [List.mem_filter] at hr
  rw [List.mem_flatMap] at hv
  obtain ⟨s, -, hv⟩ := hv
  rw [List.mem_map] at hv
  obtain ⟨l, -, heq⟩ := hv
  have hvid : r.telegramId = v := congrArg Prod.fst heq
  exact ⟨r, hr.1, hvid, hr.2⟩

/-- An inactive user never appears among the query's targets. -/
theorem inactive_not_target {db : DB} {name : String} {u : Int}
    (h : ¬ userActive db u) : ∀ lang, (u, lang) ∉ get_users_with_language_for_locality db name :=
  fun _ hmem => h (targets_active hmem)

/-! #### The per-outage user loop -/

/-- Notification rows only grow along the user loop. -/
theorem userLoop_notifs_mono (oracle : SendOracle) (oid : String) :
    ∀ (ts : List (Int × String)) (db : DB) (n : NotifRow), n ∈ db.notifications →
      n ∈ (userLoop oracle oid db ts).1.notifications := by
  intro ts
  induction ts with
  | nil => exact fun db n hn => hn
  | cons t rest ih =>
      intro db n hn
      obtain ⟨u, lang⟩ := t
      unfold userLoop
      split_ifs with hpm
      · exact ih db n hn
      · rcases hs : send_notification_to_user oracle u oid db with ⟨success, db1⟩
        have hdb1 : db1.notifications = db.notifications := by
          have := send_notifs oracle u oid db
          rw [hs] at this
          exact this
        cases success
        · exact ih db1 n (hdb1 ▸ hn)
        · refine ih (addNotif db1 u oid) n ?_
          rw [addNotif]
          exact List.mem_append_left _ (hdb1 ▸ hn)

/-- Every attempted pair of the user loop carries this outage id. -/
theorem userLoop_attempts_snd (oracle : SendOracle) (oid : String) :
    ∀ (ts : List (Int × String)) (db : DB) (pr : Int × String),
      pr ∈ (userLoop oracle oid db ts).2.1 → pr.2 = oid := by
  intro ts
  induction ts with
  | nil => intro db pr h; simp [userLoop] at h
  | cons t rest ih =>
      intro db pr h
      obtain ⟨u, lang⟩ := t
      unfold userLoop at h
      split_ifs at h with hpm
      · exact ih db pr h
      · rcases hs : send_notification_to_user oracle u oid db with ⟨success, db1⟩
        rw [hs] at h
        cases success
        · rcases List.mem_cons.mp h with rfl | h2
          · rfl
          · exact ih db1 pr h2
        · rcases List.mem_cons.mp h with rfl | h2
          · rfl
          · exact ih (addNotif db1 u oid) pr h2

/-- Every delivered pair was attempted. -/
theorem userLoop_delivered_attempted (oracle : SendOracle) (oid : String) :
    ∀ (ts : List (Int × String)) (db : DB) (pr : Int × String),
      pr ∈ (userLoop oracle oid db ts).2.2 → pr ∈ (userLoop oracle oid db ts).2.1 := by
  intro ts
  induction ts with
  | nil => intro db pr h; simp [userLoop] at h
  | cons t rest ih =>
      intro db pr h
      obtain ⟨u, lang⟩ := t
      unfold userLoop at h ⊢
      split_ifs at h ⊢ with hpm
      · exact ih db pr h
      · rcases hs : send_notification_to_user oracle u oid db with ⟨success, db1⟩
        simp only [hs] at h ⊢
        cases success
        · exact List.mem_cons_of_mem _ (ih db1 pr h)
        · rcases List.mem_cons.mp h with rfl | h2
          · exact List.mem_cons_self _ _
          · exact List.mem_cons_of_mem _ (ih (addNotif db1 u oid) pr h2)

/-- Appending a foreign notification row never changes the pair test for a
different user. -/
theorem pairMem_addNotif_ne {w v : Int} (hne : w ≠ v) (db : DB) (o' oid : String) :
    pairMem (addNotif db w o') v oid = pairMem db v oid := by
  unfold pairMem addNotif
  simp only [List.any_append, List.any_cons, List.any_nil, Bool.or_false]
  have : (w == v) = false := by simp [hne]
  simp [this]

/-- The pair test survives the user loop. -/
theorem userLoop_pairMem_mono (oracle : SendOracle) (oid : String)
    (ts : List (Int × String)) (db : DB) {u : Int} {o : String}
    (h : pairMem db u o = true) : pairMem (userLoop oracle oid db ts).1 u o = true := by
  rw [pairMem_iff] at h ⊢
  exact userLoop_notifs_mono oracle oid ts db _ h

/-- A pair whose record already exists is never attempted in the user
loop. -/
theorem userLoop_skip (oracle : SendOracle) (oid : String) :
    ∀ (ts : List (Int × String)) (db : DB) (u : Int), pairMem db u oid = true →
      (u, oid) ∉ (userLoop oracle oid db ts).2.1 := by
  intro ts
  induction ts with
  | nil => intro db u h hmem; simp [userLoop] at hmem
  | cons t rest ih =>
      intro db u h hmem
      obtain ⟨v, lang⟩ := t
      unfold userLoop at hmem
      split_ifs at hmem with hpm
      · exact ih db u h hmem
      · rcases hs : send_notification_to_user oracle v oid db with ⟨success, db1⟩
        simp only [hs] at hmem
        have hne : v ≠ u := fun he => hpm (he ▸ h)
        have hdb1 : pairMem db1 u oid = true := by
          have hn := send_notifs oracle v oid db
          rw [hs] at hn
          show db1.notifications.any _ = true
          rw [hn]
          exact h
        cases success
        · rcases List.mem_cons.mp hmem with he | h2
          · exact hne (congrArg Prod.fst he).symm
          · exact ih db1 u hdb1 h2
        · rcases List.mem_cons.mp hmem with he | h2
          · exact hne (congrArg Prod.fst he).symm
          · refine ih (addNotif db1 v oid) u ?_ h2
            rw [pairMem_iff] at hdb1 ⊢
            exact List.mem_append_left _ hdb1

/-- A notification row present after the user loop was present before, or
its pair was delivered in the loop. -/
theorem userLoop_new_rows (oracle : SendOracle) (oid : String) :
    ∀ (ts : List (Int × String)) (db : DB) (n : NotifRow),
      n ∈ (userLoop oracle oid db ts).1.notifications →
      n ∈ db.notifications ∨ (n.userId, n.outageId) ∈ (userLoop oracle oid db ts).2.2 := by
  intro ts
  induction ts with
  | nil => intro db n h; exact Or.inl h
  | cons t rest ih =>
      intro db n h
      obtain ⟨v, lang⟩ := t
      unfold userLoop at h ⊢
      split_ifs at h ⊢ with hpm
      · exact ih db n h
      · rcases hs : send_notification_to_user oracle v oid db with ⟨success, db1⟩
        simp only [hs] at h ⊢
        have hn1 : db1.notifications = db.notifications := by
          have hn := send_notifs oracle v oid db
          rw [hs] at hn
          exact hn
        cases success
        · rcases ih db1 n h with h2 | h2
          · exact Or.inl (hn1 ▸ h2)
          · exact Or.inr h2
        · rcases ih (addNotif db1 v oid) n h with h2 | h2
          · rcases List.mem_append.mp h2 with h3 | h3
            · exact Or.inl (hn1 ▸ h3)
            · have : n = ⟨v, oid⟩ := by simpa using h3
              rw [this]
              exact Or.inr (List.mem_cons_self _ _)
          · exact Or.inr (List.mem_cons_of_mem _ h2)

/-- A targeted active pair with no prior record and a succeeding gateway is
delivered by the user loop. -/
theorem userLoop_delivers (oracle : SendOracle) (oid : String) :
    ∀ (ts : List (Int × String)) (db : DB) (v : Int),
      (∃ lang, (v, lang) ∈ ts) → pairMem db v oid = false → oracle v oid = .ok →
      (v, oid) ∈ (userLoop oracle oid db ts).2.2 := by
  intro ts
  induction ts with
  | nil => rintro db v ⟨lang, hmem⟩; simp at hmem
  | cons t rest ih =>
      rintro db v ⟨lang, hmem⟩ hpm hok
      obtain ⟨w, lw⟩ := t
      unfold userLoop
      split_ifs with hpmw
      · rcases List.mem_cons.mp hmem with he | htail
        · have hv : v = w := congrArg Prod.fst he
          rw [← hv] at hpmw
          rw [hpmw] at hpm
          exact absurd hpm (by simp)
        · exact ih db v ⟨lang, htail⟩ hpm hok
      · rcases hs : send_notification_to_user oracle w oid db with ⟨success, db1⟩
        simp only [hs]
        by_cases hwv : w = v
        · subst hwv
          have hf := send_fst oracle w oid db
          rw [hs] at hf
          have : success = true := hf.mpr hok
          subst this
          exact List.mem_cons_self _ _
        · have hn1 : db1.notifications = db.notifications := by
            have hn := send_notifs oracle w oid db
            rw [hs] at hn
            exact hn
          have hpm1 : pairMem db1 v oid = false := by
            show db1.notifications.any _ = false
            rw [hn1]
            exact hpm
          have htail : ∃ lg, (v, lg) ∈ rest := by
            rcases List.mem_cons.mp hmem with he | ht
            · exact absurd (congrArg Prod.fst he).symm hwv
            · exact ⟨lang, ht⟩
          cases success
          · exact ih db1 v htail hpm1 hok
          · refine List.mem_cons_of_mem _ (ih (addNotif db1 w oid) v htail ?_ hok)
            rw [pairMem_addNotif_ne hwv]
            exact hpm1

/-- No delivery to a pair whose gateway outcome is not ok. -/
theorem userLoop_no_delivery (oracle : SendOracle) (oid : String) :
    ∀ (ts : List (Int × String)) (db : DB) (u : Int), oracle u oid ≠ .ok →
      (u, oid) ∉ (userLoop oracle oid db ts).2.2 := by
  intro ts
  induction ts with
  | nil => intro db u hne hmem; simp [userLoop] at hmem
  | cons t rest ih =>
      intro db u hne hmem
      obtain ⟨w, lw⟩ := t
      unfold userLoop at hmem
      split_ifs at hmem with hpm
      · exact ih db u hne hmem
      · rcases hs : send_notification_to_user oracle w oid db with ⟨success, db1⟩
        simp only [hs] at hmem
        cases success
        · exact ih db1 u hne hmem
        · rcases List.mem_cons.mp hmem with he | h2
          · have hw : u = w := congrArg Prod.fst he
            have hf := send_fst oracle w oid db
            rw [hs] at hf
            exact hne (hw ▸ hf.mp rfl)
          · exact ih (addNotif db1 w oid) u hne h2

/-- No record appears for a pair whose gateway outcome is not ok. -/
theorem userLoop_no_record (oracle : SendOracle) (oid : String) :
    ∀ (ts : List (Int × String)) (db : DB) (u : Int), oracle u oid ≠ .ok →
      pairMem db u oid = false → pairMem (userLoop oracle oid db ts).1 u oid = false := by
  intro ts
  induction ts with
  | nil => intro db u hne hpm; exact hpm
  | cons t rest ih =>
      intro db u hne hpm
      obtain ⟨w, lw⟩ := t
      unfold userLoop
      split_ifs with hpmw
      · exact ih db u hne hpm
      · rcases hs : send_notification_to_user oracle w oid db with ⟨success, db1⟩
        simp only [hs]
        have hn1 : db1.notifications = db.notifications := by
          have hn := send_notifs oracle w oid db
          rw [hs] at hn
          exact hn
        have hpm1 : pairMem db1 u oid = false := by
          show db1.notifications.any _ = false
          rw [hn1]
          exact hpm
        cases success
        · exact ih db1 u hne hpm1
        · have hwu : w ≠ u := by
            intro he
            have hf := send_fst oracle w oid db
            rw [hs] at hf
            exact hne (he ▸ hf.mp rfl)
          refine ih (addNotif db1 w oid) u hne ?_
          rw [pairMem_addNotif_ne hwu]
          exact hpm1

/-- Inactivity survives the user loop: nothing in it reactivates a user. -/
theorem userLoop_preserves_inactive (oracle : SendOracle) (oid : String) :
    ∀ (ts : List (Int × String)) (db : DB) (u : Int), ¬ userActive db u →
      ¬ userActive (userLoop oracle oid db ts).1 u := by
  intro ts
  induction ts with
  | nil => intro db u h; exact h
  | cons t rest ih =>
      intro db u h
      obtain ⟨w, lw⟩ := t
      unfold userLoop
      split_ifs with hpm
      · exact ih db u h
      · rcases hs : send_notification_to_user oracle w oid db with ⟨success, db1⟩
        simp only [hs]
        have hdb1 : ¬ userActive db1 u := by
          have hp := send_preserves_inactive oracle w oid db h
          rw [hs] at hp
          exact hp
        cases success
        · exact ih db1 u hdb1
        · exact ih (addNotif db1 w oid) u hdb1

/-- Every attempt of the user loop targets an entry of the target list. -/
theorem userLoop_attempts_from (oracle : SendOracle) (oid : String) :
    ∀ (ts : List (Int × String)) (db : DB) (pr : Int × String),
      pr ∈ (userLoop oracle oid db ts).2.1 → ∃ lang, (pr.1, lang) ∈ ts := by
  intro ts
  induction ts with
  | nil => intro db pr h; simp [userLoop] at h
  | cons t rest ih =>
      intro db pr h
      obtain ⟨w, lw⟩ := t
      unfold userLoop at h
      split_ifs at h with hpm
      · obtain ⟨lang, hl⟩ := ih db pr h
        exact ⟨lang, List.mem_cons_of_mem _ hl⟩
      · rcases hs : send_notification_to_user oracle w oid db with ⟨success, db1⟩
        simp only [hs] at h
        cases success
        · rcases List.mem_cons.mp h with rfl | h2
          · exact ⟨lw, List.mem_cons_self _ _⟩
          · obtain ⟨lang, hl⟩ := ih db1 pr h2
            exact ⟨lang, List.mem_cons_of_mem _ hl⟩
        · rcases List.mem_cons.mp h with rfl | h2
          · exact ⟨lw, List.mem_cons_self _ _⟩
          · obtain ⟨lang, hl⟩ := ih (addNotif db1 w oid) pr h2
            exact ⟨lang, List.mem_cons_of_mem _ hl⟩

/-- A targeted user whose gateway outcome for this outage is the permanent
Telegram failure ends the user loop deactivated. -/
theorem userLoop_permanent_deactivates (oracle : SendOracle) (oid : String) :
    ∀ (ts : List (Int × String)) (db : DB) (u : Int),
      (∃ lang, (u, lang) ∈ ts) → pairMem db u oid = false →
      oracle u oid = .telegramErr true →
      ¬ userActive (userLoop oracle oid db ts).1 u := by
  intro ts
  induction ts with
  | nil => rintro db u ⟨lang, hmem⟩; simp at hmem
  | cons t rest ih =>
      rintro db u ⟨lang, hmem⟩ hpm hperm
      obtain ⟨w, lw⟩ := t
      unfold userLoop
      split_ifs with hpmw
      · rcases List.mem_cons.mp hmem with he | htail
        · have hv : u = w := congrArg Prod.fst he
          rw [← hv] at hpmw
          rw [hpmw] at hpm
          exact absurd hpm (by simp)
        · exact ih db u ⟨lang, htail⟩ hpm hperm
      · rcases hs : send_notification_to_user oracle w oid db with ⟨success, db1⟩
        simp only [hs]
        by_cases hwu : w = u
        · subst hwu
          have hs2 : send_notification_to_user oracle w oid db =
              (false, markInactive db w) := by
            unfold send_notification_to_user
            rw [hperm]
            rfl
          rw [hs2] at hs
          have hsucc : success = false := (Prod.mk.injEq _ _ _ _ ▸ hs).1.symm
          have hdb1 : db1 = markInactive db w := (Prod.mk.injEq _ _ _ _ ▸ hs).2.symm
          subst hsucc
          exact userLoop_preserves_inactive oracle oid rest db1 w
            (hdb1 ▸ markInactive_inactive db w)
        · have hn1 : db1.notifications = db.notifications := by
            have hn := send_notifs oracle w oid db
            rw [hs] at hn
            exact hn
          have hpm1 : pairMem db1 u oid = false := by
            show db1.notifications.any _ = false
            rw [hn1]
            exact hpm
          have htail : ∃ lg, (u, lg) ∈ rest := by
            rcases List.mem_cons.mp hmem with he | ht
            · exact absurd (congrArg Prod.fst he).symm hwu
            · exact ⟨lang, ht⟩
          cases success
          · exact ih db1 u htail hpm1 hperm
          · refine ih (addNotif db1 w oid) u htail ?_ hperm
            rw [pairMem_addNotif_ne hwu]
            exact hpm1

/-! #### The outage loop -/

/-- Step equation of the outage loop when the outage id is unknown. -/
theorem sendN_cons_none (oracle : SendOracle) (oid : String) (rest : List String) (db : DB)
    (hf : db.outages.find? (fun r => r.id == oid) = none) :
    send_notifications oracle db (oid :: rest) = send_notifications oracle db rest := by
  conv_lhs => rw [send_notifications]
  rw [hf]

/-- Step equation of the outage loop when the outage is found. -/
theorem sendN_cons_some (oracle : SendOracle) (oid : String) (rest : List String) (db : DB)
    (outage : OutageRow) (hf : db.outages.find? (fun r => r.id == oid) = some outage) :
    send_notifications oracle db (oid :: rest) =
      ((send_notifications oracle
          (userLoop oracle oid db (get_users_with_language_for_locality db outage.locality)).1
          rest).1,
       (userLoop oracle oid db (get_users_with_language_for_locality db outage.locality)).2.1 ++
         (send_notifications oracle
          (userLoop oracle oid db (get_users_with_language_for_locality db outage.locality)).1
          rest).2.1,
       (userLoop oracle oid db (get_users_with_language_for_locality db outage.locality)).2.2 ++
         (send_notifications oracle
          (userLoop oracle oid db (get_users_with_language_for_locality db outage.locality)).1
          rest).2.2) := by
  conv_lhs => rw [send_notifications]
  rw [hf]

/-- Notification rows only grow along the dispatch run. -/
theorem sendN_notifs_mono (oracle : SendOracle) :
    ∀ (ids : List String) (db : DB) (n : NotifRow), n ∈ db.notifications →
      n ∈ (send_notifications oracle db ids).1.notifications := by
  intro ids
  induction ids with
  | nil => exact fun db n hn => hn
  | cons oid rest ih =>
      intro db n hn
      cases hf : db.outages.find? (fun r => r.id == oid) with
      | none =>
          rw [sendN_cons_none oracle oid rest db hf]
          exact ih db n hn
      | some outage =>
          rw [sendN_cons_some oracle oid rest db outage hf]
          exact ih _ n (userLoop_notifs_mono oracle oid _ db n hn)

/-- The pair test survives a dispatch run. -/
theorem sendN_pairMem_mono (oracle : SendOracle) (ids : List String) (db : DB)
    {u : Int} {o : String} (h : pairMem db u o = true) :
    pairMem (send_notifications oracle db ids).1 u o = true := by
  rw [pairMem_iff] at h ⊢
  exact sendN_notifs_mono oracle ids db _ h

/-- Every delivery of a run is among its attempts. -/
theorem sendN_delivered_attempted (oracle : SendOracle) :
    ∀ (ids : List String) (db : DB) (pr : Int × String),
      pr ∈ (send_notifications oracle db ids).2.2 →
      pr ∈ (send_notifications oracle db ids).2.1 := by
  intro ids
  induction ids with
  | nil => intro db pr h; exact h
  | cons oid rest ih =>
      intro db pr h
      cases hf : db.outages.find? (fun r => r.id == oid) with
      | none =>
          rw [sendN_cons_none oracle oid rest db hf] at h ⊢
          exact ih db pr h
      | some outage =>
          rw [sendN_cons_some oracle oid rest db outage hf] at h ⊢
          rcases List.mem_append.mp h with h2 | h2
          · exact List.mem_append_left _ (userLoop_delivered_attempted oracle oid _ db pr h2)
          · exact List.mem_append_right _ (ih _ pr h2)

/-- A pair whose record already exists is never attempted in a run. -/
theorem sendN_skip (oracle : SendOracle) :
    ∀ (ids : List String) (db : DB) (u : Int) (o : String), pairMem db u o = true →
      (u, o) ∉ (send_notifications oracle db ids).2.1 := by
  intro ids
  induction ids with
  | nil => intro db u o h hmem; simp [send_notifications] at hmem
  | cons oid rest ih =>
      intro db u o h hmem
      cases hf : db.outages.find? (fun r => r.id == oid) with
      | none =>
          rw [sendN_cons_none oracle oid rest db hf] at hmem
          exact ih db u o h hmem
      | some outage =>
          rw [sendN_cons_some oracle oid rest db outage hf] at hmem
          rcases List.mem_append.mp hmem with h2 | h2
          · have hsnd := userLoop_attempts_snd oracle oid _ db (u, o) h2
            dsimp only at hsnd
            subst hsnd
            exact userLoop_skip oracle o _ db u h h2
          · exact ih _ u o (userLoop_pairMem_mono oracle oid _ db h) h2

/-- A notification row present after a run was present before, or its pair
was delivered during the run. -/
theorem sendN_new_rows (oracle : SendOracle) :
    ∀ (ids : List String) (db : DB) (n : NotifRow),
      n ∈ (send_notifications oracle db ids).1.notifications →
      n ∈ db.notifications ∨ (n.userId, n.outageId) ∈ (send_notifications oracle db ids).2.2 := by
  intro ids
  induction ids with
  | nil => intro db n h; exact Or.inl h
  | cons oid rest ih =>
      intro db n h
      cases hf : db.outages.find? (fun r => r.id == oid) with
      | none =>
          rw [sendN_cons_none oracle oid rest db hf] at h ⊢
          exact ih db n h
      | some outage =>
          rw [sendN_cons_some oracle oid rest db outage hf] at h ⊢
          rcases ih _ n h with h2 | h2
          · rcases userLoop_new_rows oracle oid _ db n h2 with h3 | h3
            · exact Or.inl h3
            · exact Or.inr (List.mem_append_left _ h3)
          · exact Or.inr (List.mem_append_right _ h2)

/-- Inactivity survives a dispatch run. -/
theorem sendN_preserves_inactive (oracle : SendOracle) :
    ∀ (ids : List String) (db : DB) (u : Int), ¬ userActive db u →
      ¬ userActive (send_notifications oracle db ids).1 u := by
  intro ids
  induction ids with
  | nil => exact fun db u h => h
  | cons oid rest ih =>
      intro db u h
      cases hf : db.outages.find? (fun r => r.id == oid) with
      | none =>
          rw [sendN_cons_none oracle oid rest db hf]
          exact ih db u h
      | some outage =>
          rw [sendN_cons_some oracle oid rest db outage hf]
          exact ih _ u (userLoop_preserves_inactive oracle oid _ db u h)

/-- A user inactive at the start of a run is never an attempt target. -/
theorem sendN_inactive_never_attempted (oracle : SendOracle) :
    ∀ (ids : List String) (db : DB) (u : Int), ¬ userActive db u →
      ∀ pr ∈ (send_notifications oracle db ids).2.1, pr.1 ≠ u := by
  intro ids
  induction ids with
  | nil => intro db u h pr hmem; simp [send_notifications] at hmem
  | cons oid rest ih =>
      intro db u h pr hmem
      cases hf : db.outages.find? (fun r => r.id == oid) with
      | none =>
          rw [sendN_cons_none oracle oid rest db hf] at hmem
          exact ih db u h pr hmem
      | some outage =>
          rw [sendN_cons_some oracle oid rest db outage hf] at hmem
          rcases List.mem_append.mp hmem with h2 | h2
          · obtain ⟨lang, hl⟩ := userLoop_attempts_from oracle oid _ db pr h2
            intro he
            exact h (he ▸ targets_active hl)
          · exact ih _ u (userLoop_preserves_inactive oracle oid _ db u h) pr h2

/-- The stored rows of one user, in order. -/
def usersFor (db : DB) (u : Int) : List UserRow :=
  db.users.filter fun r => r.telegramId == u

/-- Deactivating another user leaves this user's rows unchanged. -/
theorem markInactive_usersFor_ne {w u : Int} (hne : w ≠ u) (db : DB) :
    usersFor (markInactive db w) u = usersFor db u := by
  unfold usersFor markInactive
  show List.filter _ (db.users.map _) = _
  induction db.users with
  | nil => rfl
  | cons r rest ih =>
      simp only [List.map_cons, List.filter_cons]
      by_cases hb : r.telegramId == w
      · have hrw : r.telegramId = w := by simpa using hb
        have hru : (r.telegramId == u) = false := by simp [hrw, hne]
        rw [if_pos hb]
        simp only [hru, Bool.false_eq_true, if_false]
        exact ih
      · rw [if_neg hb]
        by_cases hru : r.telegramId == u
        · simp only [hru, if_true]
          rw [ih]
        · simp only [hru, Bool.false_eq_true, if_false]
          exact ih

/-- A delivery attempt to some user leaves the rows of a user whose
gateway outcomes are never the permanent failure unchanged. -/
theorem send_usersFor (oracle : SendOracle) (w : Int) (o' : String) (db : DB) {u : Int}
    (h : ∀ o2, oracle u o2 ≠ .telegramErr true) :
    usersFor (send_notification_to_user oracle w o' db).2 u = usersFor db u := by
  unfold send_notification_to_user
  cases ho : oracle w o' with
  | ok => rfl
  | otherErr => rfl
  | telegramErr perm =>
      cases perm
      · rfl
      · by_cases hwu : w = u
        · exact absurd (hwu ▸ ho) (h o')
        · exact markInactive_usersFor_ne hwu db

/-- The user loop leaves the rows of a user whose gateway outcomes are
never the permanent failure unchanged. -/
theorem userLoop_usersFor (oracle : SendOracle) (oid : String) :
    ∀ (ts : List (Int × String)) (db : DB) (u : Int),
      (∀ o2, oracle u o2 ≠ .telegramErr true) →
      usersFor (userLoop oracle oid db ts).1 u = usersFor db u := by
  intro ts
  induction ts with
  | nil => intro db u h; rfl
  | cons t rest ih =>
      intro db u h
      obtain ⟨w, lw⟩ := t
      unfold userLoop
      split_ifs with hpm
      · exact ih db u h
      · rcases hs : send_notification_to_user oracle w oid db with ⟨success, db1⟩
        simp only [hs]
        have hdb1 : usersFor db1 u = usersFor db u := by
          have hu := send_usersFor oracle w oid db h
          rw [hs] at hu
          exact hu
        cases success
        · rw [ih db1 u h, hdb1]
        · rw [ih (addNotif db1 w oid) u h]
          exact hdb1

/-- A dispatch run leaves the rows of a user whose gateway outcomes are
never the permanent failure unchanged. -/
theorem sendN_usersFor (oracle : SendOracle) :
    ∀ (ids : List String) (db : DB) (u : Int),
      (∀ o2, oracle u o2 ≠ .telegramErr true) →
      usersFor (send_notifications oracle db ids).1 u = usersFor db u := by
  intro ids
  induction ids with
  | nil => intro db u h; rfl
  | cons oid rest ih =>
      intro db u h
      cases hf : db.outages.find? (fun r => r.id == oid) with
      | none =>
          rw [sendN_cons_none oracle oid rest db hf]
          exact ih db u h
      | some outage =>
          rw [sendN_cons_some oracle oid rest db outage hf]
          rw [ih _ u h, userLoop_usersFor oracle oid _ db u h]

/-! ### Helper lemmas: change detection -/

/-- Equality of every stored outage column except `last_checked`. -/
def coreEq (r r' : OutageRow) : Prop :=
  r.id = r'.id ∧ r.locality = r'.locality ∧ r.district = r'.district ∧
  r.streets = r'.streets ∧ r.dateDescription = r'.dateDescription ∧
  r.fromTime = r'.fromTime ∧ r.toTime = r'.toTime ∧ r.firstSeen = r'.firstSeen

/-- Core equality is reflexive. -/
theorem coreEq_refl (r : OutageRow) : coreEq r r :=
  ⟨rfl, rfl, rfl, rfl, rfl, rfl, rfl, rfl⟩

/-- Core equality is transitive. -/
theorem coreEq_trans {a b c : OutageRow} (h1 : coreEq a b) (h2 : coreEq b c) : coreEq a c := by
  obtain ⟨a1, a2, a3, a4, a5, a6, a7, a8⟩ := h1
  obtain ⟨b1, b2, b3, b4, b5, b6, b7, b8⟩ := h2
  exact ⟨a1.trans b1, a2.trans b2, a3.trans b3, a4.trans b4, a5.trans b5,
    a6.trans b6, a7.trans b7, a8.trans b8⟩

/-- The `last_checked` touch preserves every core column. -/
theorem coreEq_touch (r : OutageRow) (i : String) (now : Int) :
    coreEq r (if r.id == i then { r with lastChecked := now } else r) := by
  split_ifs with h
  · exact ⟨rfl, rfl, rfl, rfl, rfl, rfl, rfl, rfl⟩
  · exact coreEq_refl r

/-- The `last_checked` touch preserves the id. -/
theorem touch_id (r : OutageRow) (i : String) (now : Int) :
    ((if r.id == i then { r with lastChecked := now } else r) : OutageRow).id = r.id := by
  split_ifs <;> rfl

/-- A created row carries the record's id. -/
theorem createOutageRow_id {now : Int} {i : String} {o : JsonOutage} {row : OutageRow}
    (h : createOutageRow now i o = some row) : row.id = i := by
  unfold createOutageRow at h
  split at h
  · split at h
    · cases h
      rfl
    · exact absurd h (by simp)
  · exact absurd h (by simp)

/-- Whether the row construction succeeds depends only on the record's
`from`/`to` fields, never on the clock or the id. -/
def createOk (o : JsonOutage) : Bool :=
  match o.fromS, o.toS with
  | some fs, some ts => (parseIso fs).isSome && (parseIso ts).isSome
  | _, _ => false

/-- Row construction fails exactly when `createOk` is false. -/
theorem createOutageRow_none_iff (now : Int) (i : String) (o : JsonOutage) :
    createOutageRow now i o = none ↔ createOk o = false := by
  unfold createOutageRow createOk
  cases o.fromS with
  | none => simp
  | some fs =>
      cases o.toS with
      | none => simp
      | some ts => cases hf : parseIso fs <;> cases ht : parseIso ts <;> simp [hf, ht]

/-- Some stored outage row carries this id. -/
def hasOutageId (db : DB) (i : String) : Prop := ∃ r ∈ db.outages, r.id = i

/-- The `existing` query of the loop agrees with `hasOutageId`. -/
theorem hasOutageId_iff (db : DB) (i : String) :
    (db.outages.any fun r => r.id == i) = true ↔ hasOutageId db i := by
  rw [List.any_eq_true]
  unfold hasOutageId
  constructor
  · rintro ⟨r, hr, hb⟩
    exact ⟨r, hr, by simpa using hb⟩
  · rintro ⟨r, hr, hb⟩
    exact ⟨r, hr, by simpa using hb⟩

/-- Step equation: a record without an id is skipped. -/
theorem processStep_no_id (now : Int) (acc : ProcessAcc) (o : JsonOutage)
    (h : o.id = none) : processStep now acc o = acc := by
  unfold processStep
  rw [h]

/-- Step equation: a record with an empty id is skipped. -/
theorem processStep_empty_id (now : Int) (acc : ProcessAcc) (o : JsonOutage) (i : String)
    (h : o.id = some i) (he : i = "") : processStep now acc o = acc := by
  unfold processStep
  rw [h]
  exact if_pos he

/-- Step equation: a known id is classified known and only touched. -/
theorem processStep_known (now : Int) (acc : ProcessAcc) (o : JsonOutage) (i : String)
    (h : o.id = some i) (hne : i ≠ "")
    (hany : (acc.db.outages.any fun r => r.id == i) = true) :
    processStep now acc o =
      { acc with knownIds := acc.knownIds ++ [i],
                 db := { acc.db with outages := acc.db.outages.map fun r =>
                   if r.id == i then { r with lastChecked := now } else r } } := by
  unfold processStep
  rw [h]
  dsimp only
  rw [if_neg hne, if_pos hany]

/-- Step equation: an unknown id with a well-formed record is created. -/
theorem processStep_create (now : Int) (acc : ProcessAcc) (o : JsonOutage) (i : String)
    (row : OutageRow) (h : o.id = some i) (hne : i ≠ "")
    (hany : (acc.db.outages.any fun r => r.id == i) = false)
    (hc : createOutageRow now i o = some row) :
    processStep now acc o =
      { acc with newIds := acc.newIds ++ [i],
                 db := { acc.db with outages := acc.db.outages ++ [row] } } := by
  unfold processStep
  rw [h]
  dsimp only
  rw [if_neg hne, if_neg (by simp [hany]), hc]

/-- Step equation: an unknown id whose row construction fails rolls back. -/
theorem processStep_failed (now : Int) (acc : ProcessAcc) (o : JsonOutage) (i : String)
    (h : o.id = some i) (hne : i ≠ "")
    (hany : (acc.db.outages.any fun r => r.id == i) = false)
    (hc : createOutageRow now i o = none) : processStep now acc o = acc := by
  unfold processStep
  rw [h]
  dsimp only
  rw [if_neg hne, if_neg (by simp [hany]), hc]

/-- One step preserves every stored id. -/
theorem processStep_hasId (now : Int) (acc : ProcessAcc) (o : JsonOutage) (i : String)
    (h : hasOutageId acc.db i) : hasOutageId (processStep now acc o).db i := by
  obtain ⟨r, hr, hid⟩ := h
  rcases ho : o.id with _ | j
  · rw [processStep_no_id now acc o ho]
    exact ⟨r, hr, hid⟩
  · by_cases hje : j = ""
    · rw [processStep_empty_id now acc o j ho hje]
      exact ⟨r, hr, hid⟩
    · cases hany : (acc.db.outages.any fun r => r.id == j) with
      | true =>
          rw [processStep_known now acc o j ho hje hany]
          exact ⟨_, List.mem_map_of_mem _ hr, (touch_id r j now).trans hid⟩
      | false =>
          cases hc : createOutageRow now j o with
          | none =>
              rw [processStep_failed now acc o j ho hje hany hc]
              exact ⟨r, hr, hid⟩
          | some row =>
              rw [processStep_create now acc o j row ho hje hany hc]
              exact ⟨r, List.mem_append_left _ hr, hid⟩

/-- The whole loop preserves every stored id. -/
theorem foldl_hasId (now : Int) (l : List JsonOutage) :
    ∀ (acc : ProcessAcc) (i : String), hasOutageId acc.db i →
      hasOutageId (l.foldl (processStep now) acc).db i := by
  induction l with
  | nil => exact fun acc i h => h
  | cons o rest ih => exact fun acc i h => ih _ i (processStep_hasId now acc o i h)

/-- One step keeps every pre-existing row, up to the `last_checked`
touch. -/
theorem processStep_frame_fwd (now : Int) (acc : ProcessAcc) (o : JsonOutage)
    (r : OutageRow) (hr : r ∈ acc.db.outages) :
    ∃ r' ∈ (processStep now acc o).db.outages, coreEq r r' := by
  rcases ho : o.id with _ | j
  · rw [processStep_no_id now acc o ho]
    exact ⟨r, hr, coreEq_refl r⟩
  · by_cases hje : j = ""
    · rw [processStep_empty_id now acc o j ho hje]
      exact ⟨r, hr, coreEq_refl r⟩
    · cases hany : (acc.db.outages.any fun r => r.id == j) with
      | true =>
          rw [processStep_known now acc o j ho hje hany]
          exact ⟨_, List.mem_map_of_mem _ hr, coreEq_touch r j now⟩
      | false =>
          cases hc : createOutageRow now j o with
          | none =>
              rw [processStep_failed now acc o j ho hje hany hc]
              exact ⟨r, hr, coreEq_refl r⟩
          | some row =>
              rw [processStep_create now acc o j row ho hje hany hc]
              exact ⟨r, List.mem_append_left _ hr, coreEq_refl r⟩

/-- One step introduces no row bearing a pre-existing id other than the
touched copies of the old rows. -/
theorem processStep_frame_bwd (now : Int) (acc : ProcessAcc) (o : JsonOutage)
    (r' : OutageRow) (hr' : r' ∈ (processStep now acc o).db.outages)
    (hhas : hasOutageId acc.db r'.id) : ∃ r ∈ acc.db.outages, coreEq r r' := by
  rcases ho : o.id with _ | j
  · rw [processStep_no_id now acc o ho] at hr'
    exact ⟨r', hr', coreEq_refl r'⟩
  · by_cases hje : j = ""
    · rw [processStep_empty_id now acc o j ho hje] at hr'
      exact ⟨r', hr', coreEq_refl r'⟩
    · cases hany : (acc.db.outages.any fun r => r.id == j) with
      | true =>
          rw [processStep_known now acc o j ho hje hany] at hr'
          obtain ⟨r, hr, rfl⟩ := List.mem_map.mp hr'
          exact ⟨r, hr, coreEq_touch r j now⟩
      | false =>
          cases hc : createOutageRow now j o with
          | none =>
              rw [processStep_failed now acc o j ho hje hany hc] at hr'
              exact ⟨r', hr', coreEq_refl r'⟩
          | some row =>
              rw [processStep_create now acc o j row ho hje hany hc] at hr'
              rcases List.mem_append.mp hr' with h2 | h2
              · exact ⟨r', h2, coreEq_refl r'⟩
              · have hrow : r' = row := by simpa using h2
                subst hrow
                obtain ⟨r, hr, hid⟩ := hhas
                rw [createOutageRow_id hc] at hid
                have : (acc.db.outages.any fun r => r.id == j) = true :=
                  (hasOutageId_iff _ _).mpr ⟨r, hr, hid⟩
                rw [hany] at this
                exact absurd this (by simp)

/-- The whole loop keeps every pre-existing row, up to the `last_checked`
touch. -/
theorem foldl_frame_fwd (now : Int) (l : List JsonOutage) :
    ∀ (acc : ProcessAcc) (r : OutageRow), r ∈ acc.db.outages →
      ∃ r' ∈ (l.foldl (processStep now) acc).db.outages, coreEq r r' := by
  induction l with
  | nil => exact fun acc r hr => ⟨r, hr, coreEq_refl r⟩
  | cons o rest ih =>
      intro acc r hr
      obtain ⟨r1, hr1, hc1⟩ := processStep_frame_fwd now acc o r hr
      obtain ⟨r2, hr2, hc2⟩ := ih (processStep now acc o) r1 hr1
      exact ⟨r2, hr2, coreEq_trans hc1 hc2⟩

/-- After the whole loop, every row bearing a pre-existing id agrees with
some original row on every column but `last_checked`. -/
theorem foldl_frame_bwd (now : Int) (l : List JsonOutage) :
    ∀ (acc : ProcessAcc) (r' : OutageRow),
      r' ∈ (l.foldl (processStep now) acc).db.outages →
      hasOutageId acc.db r'.id → ∃ r ∈ acc.db.outages, coreEq r r' := by
  induction l with
  | nil => exact fun acc r' hr' _ => ⟨r', hr', coreEq_refl r'⟩
  | cons o rest ih =>
      intro acc r' hr' hhas
      obtain ⟨r1, hr1, hc1⟩ := ih (processStep now acc o) r' hr'
        (processStep_hasId now acc o r'.id hhas)
      have hhas1 : hasOutageId acc.db r1.id := by
        obtain ⟨r0, hr0, hid⟩ := hhas
        exact ⟨r0, hr0, hid.trans hc1.1.symm⟩
      obtain ⟨r, hr, hc⟩ := processStep_frame_bwd now acc o r1 hr1 hhas1
      exact ⟨r, hr, coreEq_trans hc hc1⟩

/-! ### Claim C4 -/

/-- C4: frame condition on known records. Every row stored before a
detection run is still stored afterwards with its id, locality, district,
streets, date description, start, end and first-seen columns unchanged
(only `last_checked` may move), and every row whose id existed before the
run agrees with some pre-existing row on all of those columns — the run
never overwrites a known outage's identity or window. -/
theorem claim_C4_known_frame (now : Int) (db : DB) (data : Payload) :
    (∀ r ∈ db.outages, ∃ r' ∈ (process_outages now db data).db.outages, coreEq r r') ∧
    (∀ r' ∈ (process_outages now db data).db.outages,
      (∃ r ∈ db.outages, r.id = r'.id) → ∃ r ∈ db.outages, coreEq r r') := by
  constructor
  · intro r hr
    exact foldl_frame_fwd now _ { db := db } r hr
  · intro r' hr' hex
    exact foldl_frame_bwd now _ { db := db } r' hr' hex

/-- C4 (witness): a stored outage keeps its locality and window across a
run whose snapshot carries the same id with different fields. -/
theorem claim_C4_witness :
    ∃ r' ∈ (process_outages 5
      { outages := [{ id := "x", locality := "OLD", district := "d", streets := "s",
                      dateDescription := "dd", fromTime := 1, toTime := 2, firstSeen := 3,
                      lastChecked := 4 }] }
      { today := [{ id := some "x", locality := some "NEW",
                    fromS := some "2022-03-13T05:30:00Z",
                    toS := some "2022-03-13T09:00:00Z" }], future := [] }).db.outages,
      coreEq { id := "x", locality := "OLD", district := "d", streets := "s",
               dateDescription := "dd", fromTime := 1, toTime := 2, firstSeen := 3,
               lastChecked := 4 } r' :=
  (claim_C4_known_frame 5 _ _).1 _ (by decide)

/-! ### Helper lemmas: second-run behaviour of change detection -/

/-- One step never removes a `known` classification. -/
theorem processStep_knownIds_mono (now : Int) (acc : ProcessAcc) (o : JsonOutage)
    (k : String) (hk : k ∈ acc.knownIds) : k ∈ (processStep now acc o).knownIds := by
  rcases ho : o.id with _ | j
  · rw [processStep_no_id now acc o ho]
    exact hk
  · by_cases hje : j = ""
    · rw [processStep_empty_id now acc o j ho hje]
      exact hk
    · cases hany : (acc.db.outages.any fun r => r.id == j) with
      | true =>
          rw [processStep_known now acc o j ho hje hany]
          exact List.mem_append_left _ hk
      | false =>
          cases hc : createOutageRow now j o with
          | none =>
              rw [processStep_failed now acc o j ho hje hany hc]
              exact hk
          | some row =>
              rw [processStep_create now acc o j row ho hje hany hc]
              exact hk

/-- The whole loop never removes a `known` classification. -/
theorem foldl_knownIds_mono (now : Int) (l : List JsonOutage) :
    ∀ (acc : ProcessAcc) (k : String), k ∈ acc.knownIds →
      k ∈ (l.foldl (processStep now) acc).knownIds := by
  induction l with
  | nil => exact fun acc k h => h
  | cons o rest ih => exact fun acc k h => ih _ k (processStep_knownIds_mono now acc o k h)

/-- After a run, every record bearing a non-empty id either has a stored
row or its row construction deterministically fails. -/
theorem foldl_present_or_fail (now : Int) (l : List JsonOutage) :
    ∀ (acc : ProcessAcc), ∀ o ∈ l, ∀ i : String, o.id = some i → i ≠ "" →
      hasOutageId (l.foldl (processStep now) acc).db i ∨ createOk o = false := by
  induction l with
  | nil =>
      intro acc o ho
      exact absurd ho (List.not_mem_nil o)
  | cons o' rest ih =>
      intro acc o hmem i hid hne
      rcases List.mem_cons.mp hmem with rfl | hmem'
      · cases hany : (acc.db.outages.any fun r => r.id == i) with
        | true =>
            left
            exact foldl_hasId now rest _ i
              (processStep_hasId now acc o i ((hasOutageId_iff _ _).mp hany))
        | false =>
            cases hc : createOutageRow now i o with
            | some row =>
                left
                have h1 : hasOutageId (processStep now acc o).db i := by
                  rw [processStep_create now acc o i row hid hne hany hc]
                  exact ⟨row, List.mem_append_right _ (List.mem_singleton.mpr rfl),
                    createOutageRow_id hc⟩
                exact foldl_hasId now rest _ i h1
            | none =>
                right
                exact (createOutageRow_none_iff now i o).mp hc
      · exact ih (processStep now acc o') o hmem' i hid hne

/-- If every snapshot record's id is already stored or its row construction
fails, the loop reports no new ids. -/
theorem foldl_no_new (now : Int) (l : List JsonOutage) :
    ∀ (acc : ProcessAcc),
      (∀ o ∈ l, ∀ i : String, o.id = some i → i ≠ "" →
        hasOutageId acc.db i ∨ createOk o = false) →
      (l.foldl (processStep now) acc).newIds = acc.newIds := by
  induction l with
  | nil => exact fun acc _ => rfl
  | cons o rest ih =>
      intro acc hhyp
      have htail : ∀ o' ∈ rest, ∀ i : String, o'.id = some i → i ≠ "" →
          hasOutageId (processStep now acc o).db i ∨ createOk o' = false := by
        intro o' hmem i hid hne
        rcases hhyp o' (List.mem_cons_of_mem o hmem) i hid hne with h | h
        · exact Or.inl (processStep_hasId now acc o i h)
        · exact Or.inr h
      have hstep : (processStep now acc o).newIds = acc.newIds := by
        rcases ho : o.id with _ | j
        · rw [processStep_no_id now acc o ho]
        · by_cases hje : j = ""
          · rw [processStep_empty_id now acc o j ho hje]
          · rcases hhyp o (List.mem_cons_self o rest) j ho hje with hhas | hfail
            · rw [processStep_known now acc o j ho hje ((hasOutageId_iff _ _).mpr hhas)]
            · cases hany : (acc.db.outages.any fun r => r.id == j) with
              | true => rw [processStep_known now acc o j ho hje hany]
              | false =>
                  rw [processStep_failed now acc o j ho hje hany
                    ((createOutageRow_none_iff now j o).mpr hfail)]
      calc ((o :: rest).foldl (processStep now) acc).newIds
          = (rest.foldl (processStep now) (processStep now acc o)).newIds := rfl
        _ = (processStep now acc o).newIds := ih _ htail
        _ = acc.newIds := hstep

/-- A snapshot record whose id is already stored ends up classified known. -/
theorem foldl_classify_known (now : Int) (l : List JsonOutage) :
    ∀ (acc : ProcessAcc) (i : String), i ≠ "" → (∃ o ∈ l, o.id = some i) →
      hasOutageId acc.db i → i ∈ (l.foldl (processStep now) acc).knownIds := by
  induction l with
  | nil =>
      rintro acc i _ ⟨o, ho, _⟩ _
      exact absurd ho (List.not_mem_nil o)
  | cons o' rest ih =>
      rintro acc i hne ⟨o, hmem, hid⟩ hhas
      rcases List.mem_cons.mp hmem with rfl | hmem'
      · have hany : (acc.db.outages.any fun r => r.id == i) = true :=
          (hasOutageId_iff _ _).mpr hhas
        have hstep : i ∈ (processStep now acc o).knownIds := by
          rw [processStep_known now acc o i hid hne hany]
          exact List.mem_append_right _ (List.mem_singleton.mpr rfl)
        exact foldl_knownIds_mono now rest _ i hstep
      · exact ih (processStep now acc o') i hne ⟨o, hmem', hid⟩
          (processStep_hasId now acc o' i hhas)

/-- Provenance of a new id: it entered with some snapshot record and its
row is stored by the end of the run. -/
theorem foldl_newIds_from (now : Int) (l : List JsonOutage) :
    ∀ (acc : ProcessAcc), ∀ i ∈ (l.foldl (processStep now) acc).newIds,
      i ∈ acc.newIds ∨ (i ≠ "" ∧ (∃ o ∈ l, o.id = some i) ∧
        hasOutageId (l.foldl (processStep now) acc).db i) := by
  induction l with
  | nil => exact fun acc i hi => Or.inl hi
  | cons o rest ih =>
      intro acc i hi
      rcases ih (processStep now acc o) i hi with h1 | ⟨hne, ⟨o', hmem, hid⟩, hhas⟩
      · rcases ho : o.id with _ | j
        · rw [processStep_no_id now acc o ho] at h1
          exact Or.inl h1
        · by_cases hje : j = ""
          · rw [processStep_empty_id now acc o j ho hje] at h1
            exact Or.inl h1
          · cases hany : (acc.db.outages.any fun r => r.id == j) with
            | true =>
                rw [processStep_known now acc o j ho hje hany] at h1
                exact Or.inl h1
            | false =>
                cases hc : createOutageRow now j o with
                | none =>
                    rw [processStep_failed now acc o j ho hje hany hc] at h1
                    exact Or.inl h1
                | some row =>
                    rw [processStep_create now acc o j row ho hje hany hc] at h1
                    have h2 : i ∈ acc.newIds ++ [j] := h1
                    rcases List.mem_append.mp h2 with h3 | h3
                    · exact Or.inl h3
                    · have hij : i = j := by simpa using h3
                      subst hij
                      refine Or.inr ⟨hje, ⟨o, List.mem_cons_self o rest, ho⟩, ?_⟩
                      have hstep : hasOutageId (processStep now acc o).db i := by
                        rw [processStep_create now acc o i row ho hje hany hc]
                        exact ⟨row, List.mem_append_right _ (List.mem_singleton.mpr rfl),
                          createOutageRow_id hc⟩
                      exact foldl_hasId now rest _ i hstep
      · exact Or.inr ⟨hne, ⟨o', List.mem_cons_of_mem o hmem, hid⟩, hhas⟩

/-- Provenance of a known id: it entered with some snapshot record and its
row is stored by the end of the run. -/
theorem foldl_knownIds_from (now : Int) (l : List JsonOutage) :
    ∀ (acc : ProcessAcc), ∀ i ∈ (l.foldl (processStep now) acc).knownIds,
      i ∈ acc.knownIds ∨ (i ≠ "" ∧ (∃ o ∈ l, o.id = some i) ∧
        hasOutageId (l.foldl (processStep now) acc).db i) := by
  induction l with
  | nil => exact fun acc i hi => Or.inl hi
  | cons o rest ih =>
      intro acc i hi
      rcases ih (processStep now acc o) i hi with h1 | ⟨hne, ⟨o', hmem, hid⟩, hhas⟩
      · rcases ho : o.id with _ | j
        · rw [processStep_no_id now acc o ho] at h1
          exact Or.inl h1
        · by_cases hje : j = ""
          · rw [processStep_empty_id now acc o j ho hje] at h1
            exact Or.inl h1
          · cases hany : (acc.db.outages.any fun r => r.id == j) with
            | true =>
                rw [processStep_known now acc o j ho hje hany] at h1
                have h2 : i ∈ acc.knownIds ++ [j] := h1
                rcases List.mem_append.mp h2 with h3 | h3
                · exact Or.inl h3
                · have hij : i = j := by simpa using h3
                  subst hij
                  refine Or.inr ⟨hje, ⟨o, List.mem_cons_self o rest, ho⟩, ?_⟩
                  exact foldl_hasId now rest _ i
                    (processStep_hasId now acc o i ((hasOutageId_iff _ _).mp hany))
            | false =>
                cases hc : createOutageRow now j o with
                | none =>
                    rw [processStep_failed now acc o j ho hje hany hc] at h1
                    exact Or.inl h1
                | some row =>
                    rw [processStep_create now acc o j row ho hje hany hc] at h1
                    exact Or.inl h1
      · exact Or.inr ⟨hne, ⟨o', List.mem_cons_of_mem o hmem, hid⟩, hhas⟩

/-! ### Claim C3 -/

/-- C3 (counterexample): the second run does not classify every record of
an identical snapshot as known. A record that carries an id but no
`from`/`to` instants fails row creation on the first run, so nothing is
stored for it; on the second identical run it is re-attempted and fails
again, and the run classifies no record as known (and none as new) even
though the snapshot holds one record. -/
theorem claim_C3_counterexample :
    ({ today := [{ id := some "x" }], future := [] } : Payload).today.length = 1 ∧
    (process_outages 1
      (process_outages 0 {} { today := [{ id := some "x" }], future := [] }).db
      { today := [{ id := some "x" }], future := [] }).knownIds = [] ∧
    (process_outages 1
      (process_outages 0 {} { today := [{ id := some "x" }], future := [] }).db
      { today := [{ id := some "x" }], future := [] }).newIds = [] := by
  decide

/-- C3 (amended): running change detection a second time on an identical
snapshot against the state produced by the first run returns zero new
records, and every record the first run classified — as new or as known —
is classified known by the second run. (Records the first run dropped for
lacking an id, or whose row construction fails, are not classified known;
they are skipped or re-attempted instead.) -/
theorem claim_C3_detection_idempotence (now1 now2 : Int) (db : DB) (data : Payload) :
    (process_outages now2 (process_outages now1 db data).db data).newIds = [] ∧
    (∀ i ∈ (process_outages now1 db data).newIds,
      i ∈ (process_outages now2 (process_outages now1 db data).db data).knownIds) ∧
    (∀ i ∈ (process_outages now1 db data).knownIds,
      i ∈ (process_outages now2 (process_outages now1 db data).db data).knownIds) := by
  refine ⟨?_, ?_, ?_⟩
  · apply foldl_no_new
    intro o hmem i hid hne
    rcases foldl_present_or_fail now1 (data.today ++ data.future) { db := db }
      o hmem i hid hne with h | h
    · exact Or.inl h
    · exact Or.inr h
  · intro i hi
    rcases foldl_newIds_from now1 (data.today ++ data.future) { db := db } i hi with
      h | ⟨hne, hex, hhas⟩
    · exact absurd h (List.not_mem_nil i)
    · exact foldl_classify_known now2 (data.today ++ data.future)
        { db := (process_outages now1 db data).db } i hne hex hhas
  · intro i hi
    rcases foldl_knownIds_from now1 (data.today ++ data.future) { db := db } i hi with
      h | ⟨hne, hex, hhas⟩
    · exact absurd h (List.not_mem_nil i)
    · exact foldl_classify_known now2 (data.today ++ data.future)
        { db := (process_outages now1 db data).db } i hne hex hhas

/-- C3 (witness): a well-formed record is created on the first run and
classified known, with zero new records, on the second. -/
theorem claim_C3_witness :
    (process_outages 1
      (process_outages 0 {}
        { today := [{ id := some "y", locality := some "loc",
                      fromS := some "2022-03-13T05:30:00Z",
                      toS := some "2022-03-13T09:00:00Z" }], future := [] }).db
      { today := [{ id := some "y", locality := some "loc",
                    fromS := some "2022-03-13T05:30:00Z",
                    toS := some "2022-03-13T09:00:00Z" }], future := [] }).newIds = [] ∧
    "y" ∈ (process_outages 1
      (process_outages 0 {}
        { today := [{ id := some "y", locality := some "loc",
                      fromS := some "2022-03-13T05:30:00Z",
                      toS := some "2022-03-13T09:00:00Z" }], future := [] }).db
      { today := [{ id := some "y", locality := some "loc",
                    fromS := some "2022-03-13T05:30:00Z",
                    toS := some "2022-03-13T09:00:00Z" }], future := [] }).knownIds :=
  ⟨(claim_C3_detection_idempotence 0 1 {}
      { today := [{ id := some "y", locality := some "loc",
                    fromS := some "2022-03-13T05:30:00Z",
                    toS := some "2022-03-13T09:00:00Z" }], future := [] }).1,
   (claim_C3_detection_idempotence 0 1 {}
      { today := [{ id := some "y", locality := some "loc",
                    fromS := some "2022-03-13T05:30:00Z",
                    toS := some "2022-03-13T09:00:00Z" }], future := [] }).2.1
     "y" (by decide)⟩

/-! ### Claims C1 and C5 -/

/-- C1: at-most-once notification. A pair whose `NotificationSent` record
is stored is skipped — it is never even attempted, let alone delivered —
in any dispatch run; a record appears for a previously unrecorded pair
only when that pair was successfully delivered during the run (never
before); and across any sequence of dispatch invocations threading the
stored state, a pair whose record exists receives zero further
deliveries. -/
theorem claim_C1_at_most_once :
    (∀ (oracle : SendOracle) (db : DB) (ids : List String) (u : Int) (o : String),
        pairMem db u o = true → (u, o) ∉ (send_notifications oracle db ids).2.1) ∧
    (∀ (oracle : SendOracle) (db : DB) (ids : List String) (u : Int) (o : String),
        pairMem db u o = false →
        pairMem (send_notifications oracle db ids).1 u o = true →
        (u, o) ∈ (send_notifications oracle db ids).2.2) ∧
    (∀ (runs : List (SendOracle × List String)) (db : DB) (u : Int) (o : String),
        pairMem db u o = true → (u, o) ∉ (runDispatches runs db).2) := by
  refine ⟨?_, ?_, ?_⟩
  · exact fun oracle db ids u o h => sendN_skip oracle ids db u o h
  · intro oracle db ids u o hfalse htrue
    rcases sendN_new_rows oracle ids db ⟨u, o⟩ ((pairMem_iff _ u o).mp htrue) with h2 | h2
    · have := (pairMem_iff db u o).mpr h2
      rw [hfalse] at this
      exact absurd this (by simp)
    · exact h2
  · intro runs
    induction runs with
    | nil => intro db u o h hmem; simp [runDispatches] at hmem
    | cons run rest ih =>
        intro db u o h hmem
        obtain ⟨oracle, ids⟩ := run
        unfold runDispatches at hmem
        rcases List.mem_append.mp hmem with h2 | h2
        · exact sendN_skip oracle ids db u o h
            (sendN_delivered_attempted oracle ids db (u, o) h2)
        · exact ih _ u o (sendN_pairMem_mono oracle ids db h) h2

/-- C1 (witness): on a concrete state holding the notification record for
user 1 and outage o1, a dispatch run with an always-succeeding gateway
never attempts that pair. -/
theorem claim_C1_witness :
    (1, "o1") ∉ (send_notifications (fun _ _ => .ok)
      { users := [{ telegramId := 1 }],
        localities := [{ lid := 5, name := "LOC" }],
        subscriptions := [{ userId := 1, localityId := 5 }],
        outages := [{ id := "o1", locality := "LOC", district := "d", streets := "",
                      dateDescription := "", fromTime := 0, toTime := 0, firstSeen := 0,
                      lastChecked := 0 }],
        notifications := [{ userId := 1, outageId := "o1" }] } ["o1"]).2.1 :=
  claim_C1_at_most_once.1 _ _ _ 1 "o1" (by decide)

/-- C5: permanent delivery failure handling. An inactive subscriber is
never an attempt or delivery target of any run; a targeted subscriber with
no prior record whose gateway outcome for the outage is the permanent
Telegram failure ends the run deactivated, undelivered and unrecorded
(so they receive nothing further until reactivated); a subscriber whose
outcomes are never the permanent failure keeps their user rows — active
flag included — untouched by the run, and with no record written the next
run will attempt again; and other subscribers of the same outage with a
succeeding gateway still receive theirs. -/
theorem claim_C5_permanent_failure :
    (∀ (oracle : SendOracle) (db : DB) (ids : List String) (u : Int), ¬ userActive db u →
        (∀ pr ∈ (send_notifications oracle db ids).2.1, pr.1 ≠ u) ∧
        (∀ pr ∈ (send_notifications oracle db ids).2.2, pr.1 ≠ u)) ∧
    (∀ (oracle : SendOracle) (db : DB) (oid : String) (outage : OutageRow) (u : Int)
        (lang : String),
        db.outages.find? (fun r => r.id == oid) = some outage →
        (u, lang) ∈ get_users_with_language_for_locality db outage.locality →
        pairMem db u oid = false → oracle u oid = .telegramErr true →
        ¬ userActive (send_notifications oracle db [oid]).1 u ∧
        (u, oid) ∉ (send_notifications oracle db [oid]).2.2 ∧
        pairMem (send_notifications oracle db [oid]).1 u oid = false) ∧
    (∀ (oracle : SendOracle) (db : DB) (ids : List String) (u : Int),
        (∀ o2, oracle u o2 ≠ .telegramErr true) →
        usersFor (send_notifications oracle db ids).1 u = usersFor db u) ∧
    (∀ (oracle : SendOracle) (db : DB) (oid : String) (outage : OutageRow) (v : Int)
        (lang : String),
        db.outages.find? (fun r => r.id == oid) = some outage →
        (v, lang) ∈ get_users_with_language_for_locality db outage.locality →
        pairMem db v oid = false → oracle v oid = .ok →
        (v, oid) ∈ (send_notifications oracle db [oid]).2.2) := by
  refine ⟨?_, ?_, ?_, ?_⟩
  · intro oracle db ids u h
    refine ⟨sendN_inactive_never_attempted oracle ids db u h, fun pr hpr => ?_⟩
    exact sendN_inactive_never_attempted oracle ids db u h pr
      (sendN_delivered_attempted oracle ids db pr hpr)
  · intro oracle db oid outage u lang hf hmem hpm hperm
    have hne : oracle u oid ≠ .ok := by
      rw [hperm]
      exact fun hcon => SendOutcome.noConfusion hcon
    rw [sendN_cons_some oracle oid [] db outage hf]
    refine ⟨?_, ?_, ?_⟩
    · exact userLoop_permanent_deactivates oracle oid _ db u ⟨lang, hmem⟩ hpm hperm
    · intro hmem2
      rcases List.mem_append.mp hmem2 with h2 | h2
      · exact userLoop_no_delivery oracle oid _ db u hne h2
      · exact List.not_mem_nil _ h2
    · exact userLoop_no_record oracle oid _ db u hne hpm
  · exact fun oracle db ids u h => sendN_usersFor oracle ids db u h
  · intro oracle db oid outage v lang hf hmem hpm hok
    rw [sendN_cons_some oracle oid [] db outage hf]
    exact List.mem_append_left _ (userLoop_delivers oracle oid _ db v ⟨lang, hmem⟩ hpm hok)

/-- C5 (witness): a concrete run over one outage with a gateway that
reports the permanent failure for subscriber 7 leaves user 7 deactivated,
undelivered and unrecorded. -/
theorem claim_C5_witness :
    ¬ userActive (send_notifications (fun _ _ => .telegramErr true)
      { users := [{ telegramId := 7 }],
        localities := [{ lid := 1, name := "L" }],
        subscriptions := [{ userId := 7, localityId := 1 }],
        outages := [{ id := "o1", locality := "L", district := "d", streets := "",
                      dateDescription := "", fromTime := 0, toTime := 0, firstSeen := 0,
                      lastChecked := 0 }],
        notifications := [] } ["o1"]).1 7 ∧
    (7, "o1") ∉ (send_notifications (fun _ _ => .telegramErr true)
      { users := [{ telegramId := 7 }],
        localities := [{ lid := 1, name := "L" }],
        subscriptions := [{ userId := 7, localityId := 1 }],
        outages := [{ id := "o1", locality := "L", district := "d", streets := "",
                      dateDescription := "", fromTime := 0, toTime := 0, firstSeen := 0,
                      lastChecked := 0 }],
        notifications := [] } ["o1"]).2.2 :=
  have h := claim_C5_permanent_failure.2.1 (fun _ _ => .telegramErr true)
    { users := [{ telegramId := 7 }],
      localities := [{ lid := 1, name := "L" }],
      subscriptions := [{ userId := 7, localityId := 1 }],
      outages := [{ id := "o1", locality := "L", district := "d", streets := "",
                    dateDescription := "", fromTime := 0, toTime := 0, firstSeen := 0,
                    lastChecked := 0 }],
      notifications := [] } "o1"
    { id := "o1", locality := "L", district := "d", streets := "", dateDescription := "",
      fromTime := 0, toTime := 0, firstSeen := 0, lastChecked := 0 } 7 "fr"
    (by decide) (by decide) (by decide) rfl
  ⟨h.1, h.2.1⟩

/-! ### Claim C10 -/

/-- Every record of the snapshot's processed lists has a nonempty date and
a nonempty id. -/
theorem allProcessed_valid {dd : List (String × List (List String))} {o : POutage}
    (h : o ∈ allProcessed dd) : o.date ≠ "" ∧ o.id ≠ "" := by
  obtain ⟨p, -, -, ho⟩ := allProcessed_mem h
  exact (removeDupGo_mem ho).2

/-- C10 (counterexample): "equal ids cannot arise in two different
districts" is false as a universal statement: by pigeonhole over the
`2^128` digests there exist two district names (all other row data equal)
whose serialized rows collide under MD5, and on that snapshot the pipeline
emits the same id twice across the combined today and future lists. No
concrete colliding pair is known, but the existence is a theorem of
cardinality. -/
theorem claim_C10_counterexample :
    ∃ (dd : List (String × List (List String))) (now : Int) (res : Categorized),
      fetch_and_parse_outages (.page (.found (some dd))) now = .ok res ∧
      ¬ ((res.today ++ res.future).map POutage.id).Nodup := by
  obtain ⟨x, y, hxy, hcol⟩ := md5_family_collision fun n =>
    (serializeOutage "Le dimanche 13 mars 2022 de 09:30:00 à 13:00:00" "TAMARIN"
      "AVE DES MARLINS" (natString n)).flatMap utf8Char
  refine ⟨[(natString x,
             [["Le dimanche 13 mars 2022 de 09:30:00 à 13:00:00", "TAMARIN", "AVE DES MARLINS"]]),
           (natString y,
             [["Le dimanche 13 mars 2022 de 09:30:00 à 13:00:00", "TAMARIN", "AVE DES MARLINS"]])],
          localUs 2022 3 13 12 0 0,
          { today :=
              [{ id := generate_outage_id
                    { date := "Le dimanche 13 mars 2022 de 09:30:00 à 13:00:00",
                      locality := "TAMARIN", streets := "AVE DES MARLINS",
                      district := natString x },
                 date := "Le dimanche 13 mars 2022 de 09:30:00 à 13:00:00",
                 locality := "TAMARIN", streets := "AVE DES MARLINS", district := natString x,
                 fromT := some (utcUs 2022 3 13 5 30 0), toT := some (utcUs 2022 3 13 9 0 0) },
               { id := generate_outage_id
                    { date := "Le dimanche 13 mars 2022 de 09:30:00 à 13:00:00",
                      locality := "TAMARIN", streets := "AVE DES MARLINS",
                      district := natString y },
                 date := "Le dimanche 13 mars 2022 de 09:30:00 à 13:00:00",
                 locality := "TAMARIN", streets := "AVE DES MARLINS", district := natString y,
                 fromT := some (utcUs 2022 3 13 5 30 0), toT := some (utcUs 2022 3 13 9 0 0) }],
            future := [] }, ?_, ?_⟩
  · unfold fetch_and_parse_outages extract_district_data
    dsimp only
    rw [if_neg (by simp)]
    simp only [List.map_cons, List.map_nil]
    rw [processDistrict_example_row, processDistrict_example_row]
    rfl
  · have hid : generate_outage_id
        { date := "Le dimanche 13 mars 2022 de 09:30:00 à 13:00:00", locality := "TAMARIN",
          streets := "AVE DES MARLINS", district := natString x } =
        generate_outage_id
        { date := "Le dimanche 13 mars 2022 de 09:30:00 à 13:00:00", locality := "TAMARIN",
          streets := "AVE DES MARLINS", district := natString y } := hcol
    intro hnd
    simp only [List.append_nil, List.map_cons, List.map_nil, List.nodup_cons] at hnd
    rw [hid] at hnd
    exact hnd.1 (by simp)

/-- C10 (amended): in the result of the HTML pipeline, within each
district duplicate rows sharing an id are collapsed keeping the first
valid occurrence, and records with an empty date or id are omitted
entirely; provided no two processed records of distinct districts collide
under the MD5 fingerprint (an assumption every concrete snapshot can be
checked for, forced only because a 128-bit hash cannot be injective),
every outage id occurs at most once across the combined today and future
lists. -/
theorem claim_C10_id_uniqueness
    (dd : List (String × List (List String))) (now : Int) (res : Categorized)
    (hok : fetch_and_parse_outages (.page (.found (some dd))) now = .ok res)
    (hkeys : (dd.map Prod.fst).Nodup)
    (hcol : ∀ o1 ∈ allProcessed dd, ∀ o2 ∈ allProcessed dd,
      o1.district ≠ o2.district → o1.id ≠ o2.id) :
    ((res.today ++ res.future).map POutage.id).Nodup ∧
    (∀ o ∈ res.today ++ res.future, o.date ≠ "" ∧ o.id ≠ "") ∧
    (∀ l : List POutage, ((remove_duplicates l).map POutage.id).Nodup) ∧
    (∀ l : List POutage, ∀ o ∈ remove_duplicates l,
      (l.filter fun x => x.date != "" && x.id == o.id).head? = some o) := by
  unfold fetch_and_parse_outages extract_district_data at hok
  dsimp only at hok
  split_ifs at hok with hemp
  case _ =>
    have hres : res =
        categorize_outages (dd.map fun p => (p.1, processDistrict p.1 p.2)) now := by
      cases hok
      rfl
    have hflat : (((dd.map fun p => (p.1, processDistrict p.1 p.2)).map Prod.snd).flatten) =
        allProcessed dd := by
      rw [List.map_map]
      rfl
    have hto : res.today = (catGo (endOfToday now) (allProcessed dd)).1 := by
      rw [hres]
      show (catGo (endOfToday now) _).1 = _
      rw [hflat]
    have hfu : res.future = (catGo (endOfToday now) (allProcessed dd)).2 := by
      rw [hres]
      show (catGo (endOfToday now) _).2 = _
      rw [hflat]
    have hnodup := allProcessed_ids_nodup dd hkeys hcol
    refine ⟨?_, ?_, ?_, ?_⟩
    · rw [hto, hfu]
      exact nodup_catGo_append _ _ hnodup
    · intro o ho
      rw [hto, hfu, catGo_eq_filter] at ho
      have hall : o ∈ allProcessed dd := by
        rcases List.mem_append.mp ho with hh | hh
        · exact (List.mem_filter.mp hh).1
        · exact (List.mem_filter.mp hh).1
      exact allProcessed_valid hall
    · intro l
      exact (removeDupGo_ids_nodup l []).1
    · intro l o ho
      exact (removeDupGo_head l [] o ho).2

/-- Unwrap the pipeline result, with an empty categorization standing in
for the error cases. -/
def pipelineResult (e : Except PipelineError Categorized) : Categorized :=
  match e with
  | .ok r => r
  | .error _ => { today := [], future := [] }

/-- C10 (witness): the amended theorem applied to a concrete two-district
snapshot; the MD5 fingerprints are computed and compared outright, and the
combined output ids are pairwise distinct with no empty dates or ids. -/
theorem claim_C10_witness :
    (((pipelineResult (fetch_and_parse_outages
        (.page (.found (some [("a", [["Le dimanche 13 mars 2022 de 09:30:00 à 13:00:00", "X", "Y"]]),
                              ("b", [["Le dimanche 13 mars 2022 de 09:30:00 à 13:00:00", "X", "Y"]])])))
        (localUs 2022 3 13 12 0 0))).today ++
      (pipelineResult (fetch_and_parse_outages
        (.page (.found (some [("a", [["Le dimanche 13 mars 2022 de 09:30:00 à 13:00:00", "X", "Y"]]),
                              ("b", [["Le dimanche 13 mars 2022 de 09:30:00 à 13:00:00", "X", "Y"]])])))
        (localUs 2022 3 13 12 0 0))).future).map POutage.id).Nodup ∧
    ∀ o ∈ (pipelineResult (fetch_and_parse_outages
        (.page (.found (some [("a", [["Le dimanche 13 mars 2022 de 09:30:00 à 13:00:00", "X", "Y"]]),
                              ("b", [["Le dimanche 13 mars 2022 de 09:30:00 à 13:00:00", "X", "Y"]])])))
        (localUs 2022 3 13 12 0 0))).today ++
      (pipelineResult (fetch_and_parse_outages
        (.page (.found (some [("a", [["Le dimanche 13 mars 2022 de 09:30:00 à 13:00:00", "X", "Y"]]),
                              ("b", [["Le dimanche 13 mars 2022 de 09:30:00 à 13:00:00", "X", "Y"]])])))
        (localUs 2022 3 13 12 0 0))).future, o.date ≠ "" ∧ o.id ≠ "" := by
  have hok : fetch_and_parse_outages
      (.page (.found (some [("a", [["Le dimanche 13 mars 2022 de 09:30:00 à 13:00:00", "X", "Y"]]),
                            ("b", [["Le dimanche 13 mars 2022 de 09:30:00 à 13:00:00", "X", "Y"]])])))
      (localUs 2022 3 13 12 0 0) =
      .ok (pipelineResult (fetch_and_parse_outages
        (.page (.found (some [("a", [["Le dimanche 13 mars 2022 de 09:30:00 à 13:00:00", "X", "Y"]]),
                              ("b", [["Le dimanche 13 mars 2022 de 09:30:00 à 13:00:00", "X", "Y"]])])))
        (localUs 2022 3 13 12 0 0))) := rfl
  have h := claim_C10_id_uniqueness _ _ _ hok (by decide) (by decide)
  exact ⟨h.1, h.2.1⟩

end KouranBot
